import Mathlib

/-!
Verification development for the `master-of-puppets` rig-module engine.

The repository under study contains two concrete rig modules:
`modules/chain.py` (class `Chain`) and `modules/corrective.py`
(class `Corrective`).  Both are written against three external layers:

* the Maya scene graph (`maya.cmds`), which the spec treats as an opaque
  scene-graph adapter (create node, reparent, connect/set attributes,
  constraints, delete);
* the base-module/field layer (`mop.core.module`, `mop.core.fields`),
  which is part of the project but not present in the sources given, and
* small dag/metadata helpers (`mop.dag`, `mop.attributes`, `mop.metadata`).

The scene graph is embedded as an explicit state (`Scene`) holding the
live node set, the parent relation, the attribute-connection graph,
stored attribute values and recorded constraints.  Node references are
natural numbers handed out by a monotone counter, mirroring the adapter
contract `create_node(type, name_hint) -> NodeRef`.  Missing project
layers are modelled from the spec; each such definition carries a
`Modelled from the spec:` doc comment naming what is missing.
-/

/-- Scene-graph node types used by the two modules.  Only the node types
the sources instantiate are listed; the spec treats them as named
capabilities of the adapter. -/
inductive NodeType where
  | joint
  | transform
  | locator
  | circle
  | plusMinusAverage
  | multiplyDivide
  | multDoubleLinear
  | condition
  | angleBetween
deriving Repr, DecidableEq

/-- An attribute of a scene node, e.g. `(5, "translateX")`. -/
abbrev SAttr := Nat × String

/-- The embedded scene graph.  `nodes` is the list of live node ids in
creation order; `nextId` is the id the next created node receives;
`parents` maps a child to its scene-graph parent (absent = world);
`conns` maps a destination attribute to the source attribute driving it;
`attrsQ`/`attrsB` hold values stored with `setAttr` (most recent first);
the three constraint lists record `pointConstraint`, `parentConstraint`
and `mop.dag.matrix_constraint` calls as (driver, driven[, offset]);
`snaps` records `snap_first_to_last`/`xform` world-transform copies;
`locked` records locked channels, `customAttrs` added user attributes;
`created` and `deleted` count node creations and deletions. -/
structure Scene where
  nextId : Nat
  nodes : List Nat
  types : List (Nat × NodeType)
  names : List (Nat × String)
  parents : List (Nat × Nat)
  conns : List (SAttr × SAttr)
  attrsQ : List (SAttr × ℚ)
  attrsB : List (SAttr × Bool)
  ptCons : List (Nat × Nat)
  parCons : List (Nat × Nat)
  matCons : List (Nat × Nat × Bool)
  snaps : List (Nat × Nat)
  locked : List SAttr
  customAttrs : List SAttr
  created : Nat
  deleted : Nat
deriving Repr, DecidableEq

/-- Adapter `create_node`: returns a fresh node reference and the scene
extended with it. -/
def createNode (s : Scene) (t : NodeType) (hint : String) : Nat × Scene :=
  (s.nextId,
    { s with
      nextId := s.nextId + 1
      nodes := s.nodes ++ [s.nextId]
      types := (s.nextId, t) :: s.types
      names := (s.nextId, hint) :: s.names
      created := s.created + 1 })

/-- Adapter `delete_nodes` (`cmds.delete` on a list): the listed nodes
leave the live set and lose their parent entries. -/
def deleteNodes (s : Scene) (ns : List Nat) : Scene :=
  { s with
    nodes := s.nodes.filter (fun n => decide (n ∉ ns))
    parents := s.parents.filter (fun e => decide (e.1 ∉ ns))
    deleted := s.deleted + ns.length }

/-- Adapter `reparent` (`cmds.parent child parent`). -/
def reparent (s : Scene) (child parent : Nat) : Scene :=
  { s with parents := (child, parent) :: s.parents.filter (fun e => e.1 != child) }

/-- Adapter `get_parent` (`cmds.listRelatives(node, parent=True)`). -/
def lookupParent (s : Scene) (n : Nat) : Option Nat :=
  s.parents.lookup n

/-- Adapter `set_attr` for numeric values. -/
def setQ (s : Scene) (a : SAttr) (v : ℚ) : Scene :=
  { s with attrsQ := (a, v) :: s.attrsQ }

/-- Adapter `set_attr` for boolean values (`inheritsTransform`). -/
def setB (s : Scene) (a : SAttr) (v : Bool) : Scene :=
  { s with attrsB := (a, v) :: s.attrsB }

/-- Adapter `connect(src, dst)` (`cmds.connectAttr`). -/
def connectA (s : Scene) (src dst : SAttr) : Scene :=
  { s with conns := (dst, src) :: s.conns }

/-- `cmds.pointConstraint(driver, driven)` recorded as a fact. -/
def addPointCon (s : Scene) (driver driven : Nat) : Scene :=
  { s with ptCons := (driver, driven) :: s.ptCons }

/-- `cmds.parentConstraint(driver, driven)` recorded as a fact. -/
def addParentCon (s : Scene) (driver driven : Nat) : Scene :=
  { s with parCons := (driver, driven) :: s.parCons }

/-- `mop.dag.matrix_constraint(driver, driven, maintain_offset)` recorded
as a fact.  Modelled from the spec: `constrain_rigid(driver, driven,
maintain_offset)` makes the driven transform track the driver. -/
def addMatCon (s : Scene) (driver driven : Nat) (offset : Bool) : Scene :=
  { s with matCons := (driver, driven, offset) :: s.matCons }

/-- Modelled from the spec: `mop.dag.snap_first_to_last` (missing from
src) sets the first node's world transform to the last node's; world
transforms are otherwise opaque here, so the call is recorded. -/
def snapTo (s : Scene) (first last : Nat) : Scene :=
  { s with snaps := (first, last) :: s.snaps }

/-- Modelled from the spec: `mop.dag.reset_node` (missing from src)
returns a node to its rest local transform: zero translation and
rotation, unit scale. -/
def resetNode (s : Scene) (n : Nat) : Scene :=
  let s := setQ s (n, "translateX") 0
  let s := setQ s (n, "translateY") 0
  let s := setQ s (n, "translateZ") 0
  let s := setQ s (n, "rotateX") 0
  let s := setQ s (n, "rotateY") 0
  let s := setQ s (n, "rotateZ") 0
  let s := setQ s (n, "scaleX") 1
  let s := setQ s (n, "scaleY") 1
  let s := setQ s (n, "scaleZ") 1
  s

/-- `cmds.rename`: node references are stable, only the display name
changes. -/
def renameNode (s : Scene) (n : Nat) (newName : String) : Scene :=
  { s with names := (n, newName) :: s.names.filter (fun e => e.1 != n) }

/-- Display name of a node (empty when unnamed). -/
def nameOf (s : Scene) (n : Nat) : String :=
  (s.names.lookup n).getD ("")

/-- `cmds.addAttr` / `create_persistent_attribute`: a user attribute is
recorded on the node.  Modelled from the spec for the persistent
variant (missing from src): the attribute also survives rebuilds, which
needs no further structure here. -/
def addCustom (s : Scene) (a : SAttr) : Scene :=
  { s with customAttrs := a :: s.customAttrs }

/-- `cmds.setAttr(..., lock=True)` on a channel. -/
def lockAttr (s : Scene) (a : SAttr) : Scene :=
  { s with locked := a :: s.locked }

/-- Modelled from the spec: `IntField.set` (field system missing from
src) validates declared numeric bounds and rejects an out-of-bounds
write with a `ValidationError` before storage. -/
def intFieldSet (hasMin : Bool) (minV : Int) (v : Int) : Except String Int :=
  if hasMin && decide (v < minV) then Except.error ("ValidationError")
  else Except.ok v

/-- Modelled from the spec: the value of an object-list field resolved
against the scene; a reference whose node was deleted is detected and
dropped rather than silently followed (§9, weak cross-module
references).  `get()` therefore returns the stored ids that are still
live. -/
def liveList (s : Scene) (stored : List Nat) : List Nat :=
  stored.filter (fun j => decide (j ∈ s.nodes))

/-! ## Chain module (`modules/chain.py`) -/

/-- Persisted state of a `Chain` module: the `chain_length` integer
field (declared with `minValue=1`), the stored `deform_joints_list`
object-list field, and the base module's `parent_joint` reference. -/
structure ChainState where
  chain_length : Int
  deform_joints_list : List Nat
  parent_joint : Option Nat
deriving Repr, DecidableEq

/-- The chain's owned joint list as `deform_joints_list.get()` returns
it: stored references resolved against the scene. -/
def chainView (c : ChainState) (s : Scene) : List Nat :=
  liveList s c.deform_joints_list

/-- Modelled from the spec: `RigModule._add_deform_joint(parent=None)`
(base module missing from src) creates one joint in the scene, parents
it under `parent` — or under the module's `parent_joint` when `parent`
is omitted — and returns its reference; the caller appends it to the
owned list. -/
def baseAddDeformJoint (pj : Option Nat) (given : Option Nat) (s : Scene) :
    Nat × Scene :=
  let (j, s) := createNode s NodeType.joint ("deform")
  match given.orElse (fun _ => pj) with
  | some p => (j, reparent s j p)
  | none => (j, s)

/-- `Chain._add_deform_joint`: parent is the last joint of
`deform_joints_list.get()` when the list is non-empty, else `None`
(the base then falls back to `parent_joint`); the new joint is appended
to the stored list. -/
def chainAddDeformJoint (c : ChainState) (s : Scene) :
    Nat × ChainState × Scene :=
  let deform_joints := chainView c s
  let parent := deform_joints.getLast?
  let (j, s) := baseAddDeformJoint c.parent_joint parent s
  (j, { c with deform_joints_list := c.deform_joints_list ++ [j] }, s)

/-- The growth loop of `Chain._update_chain_length`:
`for index in range(diff): new_joint = self._add_deform_joint();
cmds.setAttr(new_joint + '.translateX', 5)`. -/
def chainAddLoop : Nat → ChainState × Scene → ChainState × Scene
  | 0, cs => cs
  | n + 1, (c, s) =>
    let (j, c, s) := chainAddDeformJoint c s
    let s := setQ s (j, "translateX") 5
    chainAddLoop n (c, s)

/-- Python list slice `l[d:]` for a signed (possibly negative) index,
as used by `joints[diff:]` with `diff < 0`. -/
def pySliceFrom (l : List Nat) (d : Int) : List Nat :=
  l.drop (((l.length : Int) + d).toNat)

/-- Python list slice `l[:k]` for a signed bound, as used by
`joints[:len(joints) + diff]`. -/
def pySliceTo (l : List Nat) (k : Int) : List Nat :=
  l.take (k.toNat)

/-- `Chain._update_chain_length`: compares `chain_length.get()` with the
current owned joint count; grows by appending joints (each offset by
`translateX = 5`), shrinks by deleting the trailing slice
`joints[diff:]` from the scene. -/
def chainUpdateChainLength (c : ChainState) (s : Scene) : ChainState × Scene :=
  let deform_joints := chainView c s
  let diff : Int := c.chain_length - deform_joints.length
  if 0 < diff then
    chainAddLoop diff.toNat (c, s)
  else if diff < 0 then
    let joints_to_delete := pySliceFrom deform_joints diff
    (c, deleteNodes s joints_to_delete)
  else (c, s)

/-- `Chain.update` delegates to `_update_chain_length`. -/
def chainUpdate (c : ChainState) (s : Scene) : ChainState × Scene :=
  chainUpdateChainLength c s

/-- Writing the `chain_length` field through its validating setter
(declared bounds: `hasMinValue=True, minValue=1`). -/
def chainSetChainLength (c : ChainState) (v : Int) : Except String ChainState :=
  match intFieldSet true 1 v with
  | Except.error e => Except.error e
  | Except.ok w => Except.ok { c with chain_length := w }

/-- The module state after an attempted `chain_length` write: a rejected
write leaves the state unchanged (`ValidationError` is raised before
storage). -/
def applyChainSet (c : ChainState) (v : Int) : ChainState :=
  match chainSetChainLength c v with
  | Except.ok c' => c'
  | Except.error _ => c

/-! ## Corrective module (`modules/corrective.py`) -/

/-- Persisted state of a `Corrective` module: the fields declared in the
source (`joint_count` with `minValue=1`, `vector_base`, `vector_tip`,
the three derived locator references), the base module's
`deform_joints` list and `parent_joint`, the base module's
`controls_group`/`extras_group` containers, and the transient
`self.node_mult` attribute set during `_build_angle_reader`. -/
structure CorrectiveState where
  joint_count : Int
  vector_base : Option Nat
  vector_tip : Option Nat
  vector_base_loc : Option Nat
  vector_tip_loc : Option Nat
  orig_pose_vector_tip_loc : Option Nat
  deform_joints : List Nat
  parent_joint : Option Nat
  controls_group : Nat
  extras_group : Nat
  node_mult : Option Nat
deriving Repr, DecidableEq

/-- The corrective's owned joint list as `deform_joints.get()` returns
it. -/
def corrView (c : CorrectiveState) (s : Scene) : List Nat :=
  liveList s c.deform_joints

/-- `Corrective` does not override `_add_deform_joint`; the base
implementation is called with no parent argument, so the new joint is
parented under the module's `parent_joint`. -/
def corrAddDeformJoint (c : CorrectiveState) (s : Scene) :
    CorrectiveState × Scene :=
  let (j, s) := baseAddDeformJoint c.parent_joint none s
  ({ c with deform_joints := c.deform_joints ++ [j] }, s)

/-- The growth loop of `Corrective.update`:
`for index in range(diff): self._add_deform_joint()`. -/
def corrAddLoop : Nat → CorrectiveState × Scene → CorrectiveState × Scene
  | 0, cs => cs
  | n + 1, (c, s) => corrAddLoop n (corrAddDeformJoint c s)

/-- Another module of the rig as `Corrective.update` sees it: a name and
a `parent_joint` field.  The cascade only reads and rewrites that field
and calls the module's `update()`; what that `update()` does internally
belongs to the other module and is recorded as an event. -/
structure OtherModule where
  name : String
  parent_joint : Option Nat
deriving Repr, DecidableEq

/-- Observable actions of `Corrective.update`, in call order. -/
inductive REvent where
  | setParentJointField (m : String) (v : Option Nat)
  | moduleUpdated (m : String)
  | deletedNode (j : Nat)
deriving Repr, DecidableEq

/-- Python `x in list` for an optional value: `None in [..joints..]` is
false. -/
def optMem (o : Option Nat) (l : List Nat) : Bool :=
  match o with
  | some p => decide (p ∈ l)
  | none => false

/-- The cascade loop of `Corrective.update`: every rig module whose
`parent_joint` is about to be deleted is redirected to `npj` and its
`update()` is called, in rig order. -/
def cascadeAll (doomed : List Nat) (npj : Option Nat) :
    List OtherModule → List OtherModule × List REvent
  | [] => ([], [])
  | m :: rest =>
    if optMem m.parent_joint doomed then
      let (rest', evs) := cascadeAll doomed npj rest
      ({ m with parent_joint := npj } :: rest',
        REvent.setParentJointField m.name npj :: REvent.moduleUpdated m.name :: evs)
    else
      let (rest', evs) := cascadeAll doomed npj rest
      (m :: rest', evs)

/-- `Corrective.update`: grow/shrink reconciliation of the owned joint
list against `joint_count`; on shrink, the cascade reparents every
dependent module before `cmds.delete(joints_to_delete)` runs.  The
`super(Corrective, self).update()` call is modelled from the spec: the
base class ascribes reconciliation to subclasses and the spec gives the
base implementation no structural effect of its own.  The returned
event list records the calls in program order. -/
def corrUpdate (c : CorrectiveState) (rig : List OtherModule) (s : Scene) :
    CorrectiveState × List OtherModule × Scene × List REvent :=
  let view := corrView c s
  let diff : Int := c.joint_count - view.length
  if 0 < diff then
    let (c, s) := corrAddLoop diff.toNat (c, s)
    (c, rig, s, [])
  else if diff < 0 then
    let joints_to_delete := pySliceFrom view diff
    let joints_to_keep := pySliceTo view ((view.length : Int) + diff)
    let npj := (joints_to_keep.getLast?).orElse (fun _ => c.parent_joint)
    let (rig, evs) := cascadeAll joints_to_delete npj rig
    (c, rig, deleteNodes s joints_to_delete,
      evs ++ joints_to_delete.map REvent.deletedNode)
  else (c, rig, s, [])

/-- Modelled from the spec: `RigModule.add_node` (missing from src) is
the layered construction protocol's node-creation step; it creates one
typed node through the adapter with a deterministic name hint derived
from the role/description arguments. -/
def addNodeM (s : Scene) (t : NodeType) (hint : String) : Nat × Scene :=
  createNode s t hint

/-- `Corrective.create_locators`, line for line: the non-inheriting
locator space pinned to `vector_base`, the base locator (parent
constrained to `vector_base`), the tip locator (tracking `vector_tip`
when given, else a unit `+X` offset under the base locator, then moved
into the locator space and matrix constrained to the base locator), and
the rest-pose tip locator (offset set while parented under the base
locator, then reparented into the locator space, with no constraint).
Resolving an empty `vector_base` reference fails. -/
def createLocators (c : CorrectiveState) (s : Scene) :
    Except String (CorrectiveState × Scene) :=
  match c.vector_base with
  | none => Except.error ("MissingReference")
  | some vb =>
    let (locator_space_group, s) := addNodeM s NodeType.transform ("vectorsLocalSpace")
    let s := reparent s locator_space_group c.extras_group
    let s := setB s (locator_space_group, "inheritsTransform") false
    let s := snapTo s locator_space_group vb
    let s := addPointCon s vb locator_space_group
    let (vector_base, s) := addNodeM s NodeType.locator ("vector_base")
    let s := renameNode s vector_base (nameOf s vb ++ ("_vectorBase"))
    let s := reparent s vector_base locator_space_group
    let s := snapTo s vector_base vb
    let s := addParentCon s vb vector_base
    let c := { c with vector_base_loc := some vector_base }
    let (vector_tip, s) := addNodeM s NodeType.locator ("vector_tip")
    let s := renameNode s vector_tip (nameOf s vb ++ ("_vectorTip"))
    let s :=
      match c.vector_tip with
      | some vt =>
        let s := reparent s vector_tip locator_space_group
        let s := snapTo s vector_tip vt
        addMatCon s vt vector_tip true
      | none =>
        let s := resetNode s vector_tip
        let s := setQ s (vector_tip, "translateX") 1
        let s := reparent s vector_tip vector_base
        let s := reparent s vector_tip locator_space_group
        addMatCon s vector_base vector_tip true
    let c := { c with vector_tip_loc := some vector_tip }
    let (orig_pose_vector_tip, s) := addNodeM s NodeType.locator ("orig_pose_vector_tip")
    let s := renameNode s orig_pose_vector_tip (nameOf s vb ++ ("_vectorTipOrig"))
    let s := reparent s orig_pose_vector_tip vector_base
    let s := resetNode s orig_pose_vector_tip
    let s := setQ s (orig_pose_vector_tip, "translateX") 1
    let s := reparent s orig_pose_vector_tip locator_space_group
    let c := { c with orig_pose_vector_tip_loc := some orig_pose_vector_tip }
    Except.ok (c, s)

/-- `Corrective._build_angle_reader`: two subtraction nodes for the
current and rest vectors, an `angleBetween` node, `angle_times_axis`
(axis vector times angle on every component, stored in
`self.node_mult`) and the division-by-180 normaliser, whose node is
returned. -/
def buildAngleReader (c : CorrectiveState) (s : Scene) :
    Except String (Nat × CorrectiveState × Scene) :=
  match c.vector_tip_loc, c.vector_base_loc, c.orig_pose_vector_tip_loc with
  | some vtl, some vbl, some optl =>
    let (source_vector, s) := addNodeM s NodeType.plusMinusAverage ("source")
    let s := setQ s (source_vector, "operation") 2
    let (target_vector, s) := addNodeM s NodeType.plusMinusAverage ("target")
    let s := setQ s (target_vector, "operation") 2
    let s := connectA s (vtl, "translate") (source_vector, "input3D[0]")
    let s := connectA s (vbl, "translate") (source_vector, "input3D[1]")
    let s := connectA s (optl, "translate") (target_vector, "input3D[0]")
    let s := connectA s (vbl, "translate") (target_vector, "input3D[1]")
    let (angle_between, s) := addNodeM s NodeType.angleBetween ("angleBetween")
    let s := connectA s (source_vector, "output3D") (angle_between, "vector1")
    let s := connectA s (target_vector, "output3D") (angle_between, "vector2")
    let (node_mult, s) := addNodeM s NodeType.multiplyDivide ("angle_times_axis")
    let s := connectA s (angle_between, "axis") (node_mult, "input1")
    let s := connectA s (angle_between, "angle") (node_mult, "input2X")
    let s := connectA s (angle_between, "angle") (node_mult, "input2Y")
    let s := connectA s (angle_between, "angle") (node_mult, "input2Z")
    let c := { c with node_mult := some node_mult }
    let (m1_to_p1_range, s) := addNodeM s NodeType.multiplyDivide ("m1_to_p1_range")
    let s := setQ s (m1_to_p1_range, "operation") 2
    let s := connectA s (node_mult, "output") (m1_to_p1_range, "input1")
    let s := setQ s (m1_to_p1_range, "input2X") 180
    let s := setQ s (m1_to_p1_range, "input2Y") 180
    let s := setQ s (m1_to_p1_range, "input2Z") 180
    Except.ok (m1_to_p1_range, c, s)
  | _, _, _ => Except.error ("MissingReference")

/-- Modelled from the spec: `mop.dag.add_parent_group` (missing from
src) wraps a node in a new transform: the group takes the node's
current parent, the node is reparented under the group. -/
def addParentGroup (s : Scene) (n : Nat) (hint : String) : Nat × Scene :=
  let (g, s) := addNodeM s NodeType.transform hint
  let s :=
    match lookupParent s n with
    | some p => reparent s g p
    | none => s
  (g, reparent s n g)

/-- `Corrective._add_control`: the base `add_control` (modelled from the
spec: creates a control node wrapped in a buffer group) followed by the
source's own steps — snap, parent under the controls group, offset
group, matrix constraint to the joint, the `affectedBy` selector, the
`angle`/`xValue`/`yValue`/`zValue` debug attributes mirroring
`self.node_mult`'s inputs, locked transform channels, and the
`offsetPositive`/`offsetNegative` per-axis attribute pairs. -/
def addControlC (cg : Nat) (nm : Nat) (joint : Nat) (s : Scene) : Nat × Scene :=
  let (ctl, s) := addNodeM s NodeType.circle ("ctl")
  let (parent_group, s) := addNodeM s NodeType.transform ("ctl_buffer")
  let s := reparent s ctl parent_group
  let s := snapTo s parent_group joint
  let s := reparent s parent_group cg
  let (_, s) := addParentGroup s ctl ("offset")
  let s := addMatCon s ctl joint false
  let s := addCustom s (ctl, "affectedBy")
  let s := addCustom s (ctl, "angle")
  let s := connectA s (nm, "input2X") (ctl, "angle")
  let s := addCustom s (ctl, "xValue")
  let s := connectA s (nm, "input1X") (ctl, "xValue")
  let s := addCustom s (ctl, "yValue")
  let s := connectA s (nm, "input1Y") (ctl, "yValue")
  let s := addCustom s (ctl, "zValue")
  let s := connectA s (nm, "input1Z") (ctl, "zValue")
  let s := lockAttr s (ctl, "translateX")
  let s := lockAttr s (ctl, "rotateX")
  let s := lockAttr s (ctl, "scaleX")
  let s := addCustom s (ctl, "offsetPositiveX")
  let s := addCustom s (ctl, "offsetNegativeX")
  let s := lockAttr s (ctl, "translateY")
  let s := lockAttr s (ctl, "rotateY")
  let s := lockAttr s (ctl, "scaleY")
  let s := addCustom s (ctl, "offsetPositiveY")
  let s := addCustom s (ctl, "offsetNegativeY")
  let s := lockAttr s (ctl, "translateZ")
  let s := lockAttr s (ctl, "rotateZ")
  let s := lockAttr s (ctl, "scaleZ")
  let s := addCustom s (ctl, "offsetPositiveZ")
  let s := addCustom s (ctl, "offsetNegativeZ")
  (ctl, s)

/-- One `for angleAxis in 'YZ'` iteration of `Corrective.build`: the
`positive_offset` and `negative_offset` multiply nodes, the
`value_opposite` negation, their wiring over the three translate axes,
and the `>=`-conditional selecting between the two offset outputs.
Returns the condition node. -/
def wireAxis (value_range ctl : Nat) (angleAxis : String) (s : Scene) :
    Nat × Scene :=
  let (positive_offset, s) := addNodeM s NodeType.multiplyDivide ("positive_offset")
  let (negative_offset, s) := addNodeM s NodeType.multiplyDivide ("negative_offset")
  let (value_opposite, s) := addNodeM s NodeType.multDoubleLinear ("value_opposite")
  let s := connectA s (value_range, "output" ++ angleAxis) (value_opposite, "input1")
  let s := setQ s (value_opposite, "input2") (-1)
  let s := connectA s (value_range, "output" ++ angleAxis) (positive_offset, "input1X")
  let s := connectA s (ctl, "offsetPositiveX") (positive_offset, "input2X")
  let s := connectA s (value_opposite, "output") (negative_offset, "input1X")
  let s := connectA s (ctl, "offsetNegativeX") (negative_offset, "input2X")
  let s := connectA s (value_range, "output" ++ angleAxis) (positive_offset, "input1Y")
  let s := connectA s (ctl, "offsetPositiveY") (positive_offset, "input2Y")
  let s := connectA s (value_opposite, "output") (negative_offset, "input1Y")
  let s := connectA s (ctl, "offsetNegativeY") (negative_offset, "input2Y")
  let s := connectA s (value_range, "output" ++ angleAxis) (positive_offset, "input1Z")
  let s := connectA s (ctl, "offsetPositiveZ") (positive_offset, "input2Z")
  let s := connectA s (value_opposite, "output") (negative_offset, "input1Z")
  let s := connectA s (ctl, "offsetNegativeZ") (negative_offset, "input2Z")
  let (condition, s) := addNodeM s NodeType.condition ("condition")
  let s := setQ s (condition, "operation") 3
  let s := connectA s (value_range, "output" ++ angleAxis) (condition, "firstTerm")
  let s := connectA s (positive_offset, "output") (condition, "colorIfTrue")
  let s := connectA s (negative_offset, "output") (condition, "colorIfFalse")
  (condition, s)

/-- The per-joint body of `Corrective.build`'s main loop: one control,
the Y and Z branches, and the final `affected_by` conditional keyed on
the control's `affectedBy` attribute, driving `ctl.translate`. -/
def buildJoint (cg : Nat) (value_range nm joint : Nat) (s : Scene) : Scene :=
  let (ctl, s) := addControlC cg nm joint s
  let (condY, s) := wireAxis value_range ctl ("Y") s
  let (condZ, s) := wireAxis value_range ctl ("Z") s
  let (affected_by_cond, s) := addNodeM s NodeType.condition ("affected_by")
  let s := connectA s (ctl, "affectedBy") (affected_by_cond, "firstTerm")
  let s := connectA s (condY, "outColor") (affected_by_cond, "colorIfTrue")
  let s := connectA s (condZ, "outColor") (affected_by_cond, "colorIfFalse")
  let s := connectA s (affected_by_cond, "outColor") (ctl, "translate")
  s

/-- `for joint in self.driving_joints` over the owned joints.  Modelled
from the spec: `driving_joints` (base property missing from src) are
the deform joints that receive a control, which for this module is the
owned joint list. -/
def buildJoints (cg : Nat) (value_range nm : Nat) :
    List Nat → Scene → Scene
  | [], s => s
  | j :: rest, s => buildJoints cg value_range nm rest (buildJoint cg value_range nm j s)

/-- `Corrective.build`: the `vector_base` fallback to `parent_joint`,
then `create_locators`, `_build_angle_reader`, and the per-joint
control wiring. -/
def corrBuild (c : CorrectiveState) (s : Scene) :
    Except String (CorrectiveState × Scene) :=
  let c := if c.vector_base = none then { c with vector_base := c.parent_joint } else c
  match createLocators c s with
  | Except.error e => Except.error e
  | Except.ok (c, s) =>
    match buildAngleReader c s with
    | Except.error e => Except.error e
    | Except.ok (value_range, c, s) =>
      match c.node_mult with
      | none => Except.error ("MissingReference")
      | some nm =>
        Except.ok (c, buildJoints c.controls_group value_range nm (corrView c s) s)

/-- The per-joint loop of `Corrective.update_parent_joint`:
`actual_parent = cmds.listRelatives(joint, parent=True)[0]` indexes the
lookup result without a guard — a joint without a scene parent makes
the call fail (in Python, `None[0]`).  A mismatch reparents the joint
to `parent_joint`; reparenting to an empty `parent_joint` is also a
failure of the adapter call. -/
def cupjLoop (pj : Option Nat) : List Nat → Scene → Except String Scene
  | [], s => Except.ok s
  | j :: rest, s =>
    match lookupParent s j with
    | none => Except.error ("TypeError")
    | some actual =>
      if pj = some actual then cupjLoop pj rest s
      else
        match pj with
        | some p => cupjLoop pj rest (reparent s j p)
        | none => Except.error ("InvalidParent")

/-- `Corrective.update_parent_joint`: first the base behaviour —
modelled from the spec: the base `update_parent_joint` (missing from
src) reparents the module's first owned joint to the current
`parent_joint` when the scene graph's actual parent disagrees — then
the source's own loop over every owned joint. -/
def corrUpdateParentJoint (c : CorrectiveState) (s : Scene) :
    Except String Scene :=
  let s :=
    match (corrView c s).head?, c.parent_joint with
    | some j0, some p =>
      if lookupParent s j0 = some p then s else reparent s j0 p
    | _, _ => s
  cupjLoop c.parent_joint (corrView c s) s

/-! ## Dataflow semantics of the utility-node network

The wiring built by `Corrective` is a dataflow graph over adapter node
types.  The evaluator below gives those node types their documented
arithmetic meaning (`plusMinusAverage` operation 2 subtracts,
`multiplyDivide` multiplies by default and divides under operation 2,
`multDoubleLinear` multiplies two scalars, `condition` operation 3
compares `firstTerm >= secondTerm` — numeric attributes default to 0 —
and `angleBetween` yields an angle/axis pair).  The trigonometric
angle-between operation itself stays an abstract parameter, as the spec
names it only as a capability. -/

/-- A 3-vector of rational attribute values. -/
structure Vec3 where
  x : ℚ
  y : ℚ
  z : ℚ
deriving Repr, DecidableEq

/-- A value carried by an attribute: scalar or 3-vector. -/
inductive MVal where
  | num (q : ℚ)
  | vec (v : Vec3)
deriving Repr, DecidableEq

/-- Componentwise difference. -/
def vsub (a b : Vec3) : Vec3 := ⟨a.x - b.x, a.y - b.y, a.z - b.z⟩

/-- Componentwise product. -/
def vmul (a b : Vec3) : Vec3 := ⟨a.x * b.x, a.y * b.y, a.z * b.z⟩

/-- Componentwise quotient. -/
def vdiv (a b : Vec3) : Vec3 := ⟨a.x / b.x, a.y / b.y, a.z / b.z⟩

/-- Componentwise sum. -/
def vadd (a b : Vec3) : Vec3 := ⟨a.x + b.x, a.y + b.y, a.z + b.z⟩

/-- The abstract angle-between capability: two vectors in, a scalar
angle and a rotation axis out. -/
abbrev AngleFun := Vec3 → Vec3 → ℚ × Vec3

/-- External attribute values: what the live scene feeds the network
(constraint-driven locator translations, artist-authored control
attributes).  These override stored values, as a connection or
constraint does in the host. -/
abbrev EnvFun := SAttr → Option MVal

/-- Read a scalar attribute through an evaluation function. -/
def readNum (ev : SAttr → Option MVal) (n : Nat) (b : String) : Option ℚ :=
  match ev (n, b) with
  | some (MVal.num q) => some q
  | _ => none

/-- Read a vector attribute through an evaluation function: either the
compound attribute itself carries a value, or its three child
components (`X`/`Y`/`Z` suffixes) do. -/
def readVec (ev : SAttr → Option MVal) (n : Nat) (b : String) : Option Vec3 :=
  match ev (n, b) with
  | some (MVal.vec v) => some v
  | some (MVal.num q) => some ⟨q, q, q⟩
  | none =>
    match readNum ev n (b ++ ("X")), readNum ev n (b ++ ("Y")),
        readNum ev n (b ++ ("Z")) with
    | some x, some y, some z => some ⟨x, y, z⟩
    | _, _, _ => none

/-- Output attributes computed by a node from its input attributes,
following the adapter's documented node semantics. -/
def computeNode (ab : AngleFun) (s : Scene) (ev : SAttr → Option MVal) :
    SAttr → Option MVal
  | (n, attrName) =>
    match s.types.lookup n with
    | some NodeType.plusMinusAverage =>
      if attrName = ("output3D") then
        match readVec ev n ("input3D[0]"), readVec ev n ("input3D[1]") with
        | some a0, some a1 =>
          if (readNum ev n ("operation")).getD 1 = 2 then some (MVal.vec (vsub a0 a1))
          else some (MVal.vec (vadd a0 a1))
        | _, _ => none
      else none
    | some NodeType.multiplyDivide =>
      if attrName = ("output") ∨ attrName = ("outputX") ∨
          attrName = ("outputY") ∨ attrName = ("outputZ") then
        match readVec ev n ("input1"), readVec ev n ("input2") with
        | some i1, some i2 =>
          let o := if (readNum ev n ("operation")).getD 1 = 2 then vdiv i1 i2
                   else vmul i1 i2
          if attrName = ("output") then some (MVal.vec o)
          else if attrName = ("outputX") then some (MVal.num o.x)
          else if attrName = ("outputY") then some (MVal.num o.y)
          else some (MVal.num o.z)
        | _, _ => none
      else none
    | some NodeType.multDoubleLinear =>
      if attrName = ("output") then
        match readNum ev n ("input1"), readNum ev n ("input2") with
        | some i1, some i2 => some (MVal.num (i1 * i2))
        | _, _ => none
      else none
    | some NodeType.condition =>
      if attrName = ("outColor") ∨ attrName = ("outColorR") ∨
          attrName = ("outColorG") ∨ attrName = ("outColorB") then
        match readVec ev n ("colorIfTrue"), readVec ev n ("colorIfFalse") with
        | some ct, some cf =>
          let ft := (readNum ev n ("firstTerm")).getD 0
          let st := (readNum ev n ("secondTerm")).getD 0
          let op := (readNum ev n ("operation")).getD 0
          let o := if op = 3 then (if st ≤ ft then ct else cf)
                   else (if ft = st then ct else cf)
          if attrName = ("outColor") then some (MVal.vec o)
          else if attrName = ("outColorR") then some (MVal.num o.x)
          else if attrName = ("outColorG") then some (MVal.num o.y)
          else some (MVal.num o.z)
        | _, _ => none
      else none
    | some NodeType.angleBetween =>
      if attrName = ("angle") ∨ attrName = ("axis") then
        match readVec ev n ("vector1"), readVec ev n ("vector2") with
        | some v1, some v2 =>
          if attrName = ("angle") then some (MVal.num (ab v1 v2).1)
          else some (MVal.vec (ab v1 v2).2)
        | _, _ => none
      else none
    | _ => none

/-- Fuel-bounded evaluation of one attribute: a connection pulls the
source attribute's value, the live environment overrides stored
values, a stored `setAttr` value is next, and otherwise the owning
node computes the attribute from its inputs. -/
def evalAttr (ab : AngleFun) (s : Scene) (env : EnvFun) :
    Nat → SAttr → Option MVal
  | 0, _ => none
  | f + 1, a =>
    match s.conns.lookup a with
    | some src => evalAttr ab s env f src
    | none =>
      match env a with
      | some v => some v
      | none =>
        match s.attrsQ.lookup a with
        | some q => some (MVal.num q)
        | none => computeNode ab s (evalAttr ab s env f) a

/-! ## A concrete Corrective instance

A representative scene for the network-level claims: node 0 is the
parent joint (also the `vector_base` target), node 1 the module's one
deform joint (parented under 0), node 2 the extras group and node 3 the
controls group. -/

/-- The initial scene for the concrete instance. -/
def demoScene : Scene :=
  { nextId := 4
    nodes := [0, 1, 2, 3]
    types := [(0, NodeType.joint), (1, NodeType.joint),
      (2, NodeType.transform), (3, NodeType.transform)]
    names := [(0, "base"), (1, "deform1"), (2, "extras"), (3, "controls")]
    parents := [(1, 0)]
    conns := []
    attrsQ := []
    attrsB := []
    ptCons := []
    parCons := []
    matCons := []
    snaps := []
    locked := []
    customAttrs := []
    created := 0
    deleted := 0 }

/-- The concrete `Corrective` state: one joint, `vector_base` the
parent joint, no explicit `vector_tip`. -/
def demoCorr : CorrectiveState :=
  { joint_count := 1
    vector_base := some 0
    vector_tip := none
    vector_base_loc := none
    vector_tip_loc := none
    orig_pose_vector_tip_loc := none
    deform_joints := [1]
    parent_joint := some 0
    controls_group := 3
    extras_group := 2
    node_mult := none }

/-- The concrete instance after `create_locators` and
`_build_angle_reader`: the returned normaliser node and the resulting
state. -/
def demoAR : Nat × CorrectiveState × Scene :=
  match createLocators demoCorr demoScene with
  | Except.ok (c, s) =>
    match buildAngleReader c s with
    | Except.ok r => r
    | Except.error _ => (0, c, s)
  | Except.error _ => (0, demoCorr, demoScene)

/-- The concrete instance after the full `Corrective.build`. -/
def demoBuilt : CorrectiveState × Scene :=
  match corrBuild demoCorr demoScene with
  | Except.ok r => r
  | Except.error _ => (demoCorr, demoScene)

/-- The angle/axis pair the angle reader is meant to compute: the
abstract angle-between capability applied to the current-pose vector
`tip - base` and the rest-pose vector `orig - base`. -/
def angPair (ab : AngleFun) (tip base orig : Vec3) : ℚ × Vec3 :=
  ab (vsub tip base) (vsub orig base)

/-- The live environment for the concrete instance: the three locator
translations carry the given vectors (nodes 5, 6 and 7 are the base,
tip and rest-tip locators of the instance). -/
def demoEnv (tip base orig : Vec3) : EnvFun := fun a =>
  if a = ((6 : Nat), "translate") then some (MVal.vec tip)
  else if a = ((5 : Nat), "translate") then some (MVal.vec base)
  else if a = ((7 : Nat), "translate") then some (MVal.vec orig)
  else none

/-- The live environment for the full build: locator translations plus
the artist-authored per-axis offsets on the control (node 13). -/
def demoEnvB (tip base orig oP oN : Vec3) : EnvFun := fun a =>
  if a = ((6 : Nat), "translate") then some (MVal.vec tip)
  else if a = ((5 : Nat), "translate") then some (MVal.vec base)
  else if a = ((7 : Nat), "translate") then some (MVal.vec orig)
  else if a = ((13 : Nat), "offsetPositiveX") then some (MVal.num oP.x)
  else if a = ((13 : Nat), "offsetPositiveY") then some (MVal.num oP.y)
  else if a = ((13 : Nat), "offsetPositiveZ") then some (MVal.num oP.z)
  else if a = ((13 : Nat), "offsetNegativeX") then some (MVal.num oN.x)
  else if a = ((13 : Nat), "offsetNegativeY") then some (MVal.num oN.y)
  else if a = ((13 : Nat), "offsetNegativeZ") then some (MVal.num oN.z)
  else none

/-! ## Structural invariants -/

/-- `chainedB ps pj l`: every joint of `l` is parented (in the parent
relation `ps`) under its predecessor, the first under `pj` — the
module invariant of §3 stated over the embedded parent relation. -/
def chainedB (ps : List (Nat × Nat)) : Option Nat → List Nat → Bool
  | _, [] => true
  | pj, j :: rest => (ps.lookup j == pj) && chainedB ps (some j) rest

/-- Scene well-formedness: every live node and every parent-relation
child was handed out by the id counter. -/
def sceneWf (s : Scene) : Prop :=
  (∀ n ∈ s.nodes, n < s.nextId) ∧ (∀ e ∈ s.parents, e.1 < s.nextId)

/-- The `parent_joint` reference, when set, resolves to a live node
outside the module's own joint list. -/
def pjOkB (pj : Option Nat) (nodes : List Nat) (stored : List Nat) : Bool :=
  match pj with
  | some p => decide (p ∈ nodes) && decide (p ∉ stored)
  | none => true

/-- Reachable-state invariant of a `Chain` module: a well-formed scene,
a duplicate-free stored joint list of counter-issued ids, the §3 parent
chain on the live view, and a well-placed `parent_joint`. -/
def ChainInv (c : ChainState) (s : Scene) : Prop :=
  sceneWf s ∧
  c.deform_joints_list.Nodup ∧
  (∀ j ∈ c.deform_joints_list, j < s.nextId) ∧
  chainedB s.parents c.parent_joint (chainView c s) = true ∧
  pjOkB c.parent_joint s.nodes c.deform_joints_list = true

/-- Reachable-state invariant of a `Corrective` module (no chain shape:
the corrective parents all its joints under `parent_joint`). -/
def CorrInv (c : CorrectiveState) (s : Scene) : Prop :=
  sceneWf s ∧
  c.deform_joints.Nodup ∧
  (∀ j ∈ c.deform_joints, j < s.nextId) ∧
  pjOkB c.parent_joint s.nodes c.deform_joints = true

/-! ## Lookup and view lemmas -/

theorem lookup_filter_pred (ps : List (Nat × Nat)) (pred : Nat → Bool) (x : Nat)
    (h : pred x = true) :
    (ps.filter (fun e => pred e.1)).lookup x = ps.lookup x := by
  induction ps with
  | nil => rfl
  | cons e rest ih =>
    rcases e with ⟨k, v⟩
    by_cases hk : x = k
    · subst hk
      simp [List.filter_cons, h, List.lookup]
    · have hxk : (x == k) = false := by simp [hk]
      by_cases hp : pred k = true
      · simp [List.filter_cons, hp, List.lookup, hxk, ih]
      · simp [List.filter_cons, hp, List.lookup, hxk, ih]

theorem lookupParent_reparent (s : Scene) (j p x : Nat) :
    lookupParent (reparent s j p) x = if x = j then some p else lookupParent s x := by
  by_cases hx : x = j
  · subst hx
    simp [lookupParent, reparent, List.lookup]
  · have hxj : (x == j) = false := by simp [hx]
    simp only [lookupParent, reparent, if_neg hx, List.lookup, hxj]
    exact lookup_filter_pred s.parents (fun a => a != j) x (by simp [hx])

theorem lookup_none_of_ge (ps : List (Nat × Nat)) (n : Nat)
    (h : ∀ e ∈ ps, e.1 < n) : ps.lookup n = none := by
  induction ps with
  | nil => rfl
  | cons e rest ih =>
    rcases e with ⟨k, v⟩
    have h1 : k < n := h (k, v) (by simp)
    have hne : (n == k) = false := by simp; omega
    simp only [List.lookup, hne]
    exact ih (fun e he => h e (by simp [he]))

theorem chainedB_congr (ps ps' : List (Nat × Nat)) (l : List Nat) (pj : Option Nat)
    (h : ∀ x ∈ l, ps'.lookup x = ps.lookup x) :
    chainedB ps' pj l = chainedB ps pj l := by
  induction l generalizing pj with
  | nil => rfl
  | cons j rest ih =>
    simp only [chainedB]
    rw [h j (by simp), ih (some j) (fun x hx => h x (by simp [hx]))]

theorem chainedB_prefix (ps : List (Nat × Nat)) (l1 l2 : List Nat) (pj : Option Nat)
    (h : chainedB ps pj (l1 ++ l2) = true) :
    chainedB ps pj l1 = true := by
  induction l1 generalizing pj with
  | nil => rfl
  | cons a rest ih =>
    simp only [List.cons_append, chainedB, Bool.and_eq_true] at h ⊢
    exact ⟨h.1, ih (some a) h.2⟩

theorem getLast?_cons_isSome (b : Nat) (t : List Nat) :
    ∃ x, (b :: t).getLast? = some x := by
  induction t generalizing b with
  | nil => exact ⟨b, rfl⟩
  | cons c t ih =>
    rcases ih c with ⟨x, hx⟩
    exact ⟨x, by rw [List.getLast?_cons_cons, hx]⟩

theorem chainedB_append_last (ps : List (Nat × Nat)) (l : List Nat) (pj : Option Nat)
    (j : Nat) (hc : chainedB ps pj l = true)
    (hj : ps.lookup j = (l.getLast?).orElse (fun _ => pj)) :
    chainedB ps pj (l ++ [j]) = true := by
  induction l generalizing pj with
  | nil =>
    simp only [List.getLast?, Option.orElse, Option.none_orElse] at hj
    simp [chainedB, hj]
  | cons a rest ih =>
    simp only [List.cons_append, chainedB, Bool.and_eq_true] at hc ⊢
    refine ⟨hc.1, ih (some a) hc.2 ?_⟩
    rw [hj]
    cases rest with
    | nil => rfl
    | cons b t =>
      obtain ⟨x, hx⟩ := getLast?_cons_isSome b t
      rw [List.getLast?_cons_cons, hx]
      rfl

theorem liveList_snoc_fresh (s : Scene) (stored : List Nat) (nodes' : List Nat)
    (n : Nat) (hb : ∀ j ∈ stored, j ≠ n)
    (hmem : ∀ x, x ∈ nodes' ↔ (x ∈ s.nodes ∨ x = n)) :
    (stored ++ [n]).filter (fun j => decide (j ∈ nodes')) =
      liveList s stored ++ [n] := by
  rw [List.filter_append]
  have h1 : stored.filter (fun j => decide (j ∈ nodes')) = liveList s stored := by
    unfold liveList
    apply List.filter_congr
    intro j hj
    simp only [decide_eq_decide, hmem j]
    have := hb j hj
    tauto
  have h2 : [n].filter (fun j => decide (j ∈ nodes')) = [n] := by
    simp [List.filter_cons, (hmem n).mpr (Or.inr rfl)]
  rw [h1, h2]


/-! ## Projection lemmas for the scene operations -/

@[simp] theorem reparent_nextId (s : Scene) (a b : Nat) :
    (reparent s a b).nextId = s.nextId := rfl

@[simp] theorem reparent_nodes (s : Scene) (a b : Nat) :
    (reparent s a b).nodes = s.nodes := rfl

@[simp] theorem reparent_created (s : Scene) (a b : Nat) :
    (reparent s a b).created = s.created := rfl

@[simp] theorem reparent_deleted (s : Scene) (a b : Nat) :
    (reparent s a b).deleted = s.deleted := rfl

theorem reparent_parents (s : Scene) (a b : Nat) :
    (reparent s a b).parents = (a, b) :: s.parents.filter (fun e => e.1 != a) := rfl

@[simp] theorem setQ_nextId (s : Scene) (a : SAttr) (v : ℚ) :
    (setQ s a v).nextId = s.nextId := rfl

@[simp] theorem setQ_nodes (s : Scene) (a : SAttr) (v : ℚ) :
    (setQ s a v).nodes = s.nodes := rfl

@[simp] theorem setQ_parents (s : Scene) (a : SAttr) (v : ℚ) :
    (setQ s a v).parents = s.parents := rfl

@[simp] theorem setQ_created (s : Scene) (a : SAttr) (v : ℚ) :
    (setQ s a v).created = s.created := rfl

@[simp] theorem setQ_deleted (s : Scene) (a : SAttr) (v : ℚ) :
    (setQ s a v).deleted = s.deleted := rfl

@[simp] theorem deleteNodes_nextId (s : Scene) (ns : List Nat) :
    (deleteNodes s ns).nextId = s.nextId := rfl

@[simp] theorem deleteNodes_nodes (s : Scene) (ns : List Nat) :
    (deleteNodes s ns).nodes = s.nodes.filter (fun n => decide (n ∉ ns)) := rfl

@[simp] theorem deleteNodes_parents (s : Scene) (ns : List Nat) :
    (deleteNodes s ns).parents = s.parents.filter (fun e => decide (e.1 ∉ ns)) := rfl

@[simp] theorem deleteNodes_created (s : Scene) (ns : List Nat) :
    (deleteNodes s ns).created = s.created := rfl

@[simp] theorem deleteNodes_deleted (s : Scene) (ns : List Nat) :
    (deleteNodes s ns).deleted = s.deleted + ns.length := rfl

@[simp] theorem chainView_setQ (c : ChainState) (s : Scene) (a : SAttr) (v : ℚ) :
    chainView c (setQ s a v) = chainView c s := rfl

/-- `setAttr` has no structural effect: the chain invariant ignores it. -/
theorem ChainInv_setQ (c : ChainState) (s : Scene) (a : SAttr) (v : ℚ) :
    ChainInv c (setQ s a v) ↔ ChainInv c s := Iff.rfl

theorem nodup_snoc (l : List Nat) (n : Nat) (hnd : l.Nodup) (hn : n ∉ l) :
    (l ++ [n]).Nodup := by
  simp only [List.nodup_append, List.nodup_cons, List.not_mem_nil,
    not_false_eq_true, List.nodup_nil, and_true, true_and]
  constructor
  · exact hnd
  · intro x hx
    simp only [List.mem_singleton]
    intro hxn
    exact hn (hxn ▸ hx)

theorem pjOkB_snoc (pj : Option Nat) (nodes stored : List Nat) (n : Nat)
    (h : pjOkB pj nodes stored = true) (hb : ∀ x ∈ nodes, x < n) :
    pjOkB pj (nodes ++ [n]) (stored ++ [n]) = true := by
  cases pj with
  | none => rfl
  | some p =>
    simp only [pjOkB, Bool.and_eq_true, decide_eq_true_eq] at h ⊢
    have hpn : p ≠ n := Nat.ne_of_lt (hb p h.1)
    refine ⟨List.mem_append.mpr (Or.inl h.1), ?_⟩
    intro hmem
    rcases List.mem_append.mp hmem with h1 | h1
    · exact h.2 h1
    · simp only [List.mem_singleton] at h1
      exact hpn h1

theorem chainAdd_spec (c : ChainState) (s : Scene) (j : Nat) (c' : ChainState)
    (s' : Scene) (hI : ChainInv c s)
    (heq : chainAddDeformJoint c s = (j, c', s')) :
    j = s.nextId ∧
    c' = { c with deform_joints_list := c.deform_joints_list ++ [s.nextId] } ∧
    chainView c' s' = chainView c s ++ [s.nextId] ∧
    ChainInv c' s' ∧
    s'.nextId = s.nextId + 1 ∧ s'.created = s.created + 1 ∧
    s'.deleted = s.deleted := by
  obtain ⟨hwf, hnd, hbnd, hch, hpj⟩ := hI
  have hbne : ∀ x ∈ c.deform_joints_list, x ≠ s.nextId := fun x hx =>
    Nat.ne_of_lt (hbnd x hx)
  have hviewmem : ∀ x ∈ chainView c s, x ∈ s.nodes := by
    intro x hx
    exact of_decide_eq_true (List.mem_filter.mp hx).2
  have hviewne : ∀ x ∈ chainView c s, x ≠ s.nextId := fun x hx =>
    Nat.ne_of_lt (hwf.1 x (hviewmem x hx))
  have hfresh := liveList_snoc_fresh s c.deform_joints_list
    (s.nodes ++ [s.nextId]) s.nextId hbne (fun x => by simp)
  have hnodes' : ∀ n ∈ s.nodes ++ [s.nextId], n < s.nextId + 1 := by
    intro n hn
    rcases List.mem_append.mp hn with h1 | h1
    · exact Nat.lt_succ_of_lt (hwf.1 n h1)
    · simp only [List.mem_singleton] at h1
      omega
  have hnd' : (c.deform_joints_list ++ [s.nextId]).Nodup :=
    nodup_snoc _ _ hnd (fun hx => (hbne _ hx) rfl)
  have hbnd' : ∀ x ∈ c.deform_joints_list ++ [s.nextId], x < s.nextId + 1 := by
    intro x hx
    rcases List.mem_append.mp hx with h1 | h1
    · exact Nat.lt_succ_of_lt (hbnd x h1)
    · simp only [List.mem_singleton] at h1
      omega
  have hpj' := pjOkB_snoc c.parent_joint s.nodes c.deform_joints_list s.nextId
    hpj hwf.1
  rcases hpar : (chainView c s).getLast?.orElse (fun _ => c.parent_joint) with _ | p
  · -- joint created at the world root (empty view, unset parent_joint)
    simp only [chainAddDeformJoint, baseAddDeformJoint, createNode, hpar,
      Prod.mk.injEq] at heq
    obtain ⟨hj, hc, hs⟩ := heq
    subst hj
    subst hc
    subst hs
    refine ⟨rfl, rfl, ?_, ⟨⟨?_, ?_⟩, ?_, ?_, ?_, ?_⟩, rfl, rfl, rfl⟩
    · exact hfresh
    · exact hnodes'
    · intro e he
      exact Nat.lt_succ_of_lt (hwf.2 e he)
    · exact hnd'
    · exact hbnd'
    · show chainedB s.parents c.parent_joint
        ((c.deform_joints_list ++ [s.nextId]).filter
          (fun x => decide (x ∈ s.nodes ++ [s.nextId]))) = true
      rw [show (c.deform_joints_list ++ [s.nextId]).filter
            (fun x => decide (x ∈ s.nodes ++ [s.nextId]))
          = chainView c s ++ [s.nextId] from hfresh]
      apply chainedB_append_last _ _ _ _ hch
      rw [hpar]
      exact lookup_none_of_ge s.parents s.nextId hwf.2
    · exact hpj'
  · -- joint parented under the chain tail (or the parent_joint)
    simp only [chainAddDeformJoint, baseAddDeformJoint, createNode, hpar,
      Prod.mk.injEq] at heq
    obtain ⟨hj, hc, hs⟩ := heq
    subst hj
    subst hc
    subst hs
    have hlook : ∀ x, x ≠ s.nextId →
        List.lookup x ((s.nextId, p) :: s.parents.filter (fun e => e.1 != s.nextId))
          = List.lookup x s.parents := by
      intro x hx
      have hxn : (x == s.nextId) = false := by simp [hx]
      simp only [List.lookup, hxn]
      exact lookup_filter_pred s.parents (fun a => a != s.nextId) x (by simp [hx])
    refine ⟨rfl, rfl, ?_, ⟨⟨?_, ?_⟩, ?_, ?_, ?_, ?_⟩, rfl, rfl, rfl⟩
    · exact hfresh
    · exact hnodes'
    · intro e he
      rw [reparent_parents] at he
      rcases List.mem_cons.mp he with h1 | h1
      · rw [h1]
        exact Nat.lt_succ_self s.nextId
      · exact Nat.lt_succ_of_lt (hwf.2 e (List.mem_filter.mp h1).1)
    · exact hnd'
    · exact hbnd'
    · show chainedB ((s.nextId, p) :: s.parents.filter (fun e => e.1 != s.nextId))
        c.parent_joint
        ((c.deform_joints_list ++ [s.nextId]).filter
          (fun x => decide (x ∈ s.nodes ++ [s.nextId]))) = true
      rw [show (c.deform_joints_list ++ [s.nextId]).filter
            (fun x => decide (x ∈ s.nodes ++ [s.nextId]))
          = chainView c s ++ [s.nextId] from hfresh]
      apply chainedB_append_last
      · rw [chainedB_congr s.parents _ _ _ (fun x hx => hlook x (hviewne x hx))]
        exact hch
      · have hself : (s.nextId == s.nextId) = true := by simp
        simp only [List.lookup, hself]
        rw [hpar]
    · exact hpj'

theorem chainAddLoop_spec (k : Nat) :
    ∀ (c : ChainState) (s : Scene), ChainInv c s →
      ChainInv (chainAddLoop k (c, s)).1 (chainAddLoop k (c, s)).2 ∧
      (chainView (chainAddLoop k (c, s)).1 (chainAddLoop k (c, s)).2).length
        = (chainView c s).length + k ∧
      (∃ ext, chainView (chainAddLoop k (c, s)).1 (chainAddLoop k (c, s)).2
        = chainView c s ++ ext) ∧
      (chainAddLoop k (c, s)).1.chain_length = c.chain_length ∧
      (chainAddLoop k (c, s)).1.parent_joint = c.parent_joint := by
  induction k with
  | zero =>
    intro c s h
    exact ⟨h, rfl, ⟨[], by simp [chainAddLoop]⟩, rfl, rfl⟩
  | succ k ih =>
    intro c s h
    rcases heq : chainAddDeformJoint c s with ⟨j, c1, s1⟩
    obtain ⟨hj, hc1, hview, hI1, hnext, _, _⟩ := chainAdd_spec c s j c1 s1 h heq
    have hstep : chainAddLoop (k + 1) (c, s)
        = chainAddLoop k (c1, setQ s1 (j, "translateX") 5) := by
      simp only [chainAddLoop, heq]
    rw [hstep]
    have hI2 : ChainInv c1 (setQ s1 (j, "translateX") 5) :=
      (ChainInv_setQ _ _ _ _).mpr hI1
    obtain ⟨ha, hb, ⟨ext, hext⟩, hcl, hpjout⟩ :=
      ih c1 (setQ s1 (j, "translateX") 5) hI2
    refine ⟨ha, ?_, ?_, ?_, ?_⟩
    · rw [hb, chainView_setQ, hview]
      simp only [List.length_append, List.length_singleton]
      omega
    · refine ⟨[s.nextId] ++ ext, ?_⟩
      rw [hext, chainView_setQ, hview, List.append_assoc]
    · rw [hcl, hc1]
    · rw [hpjout, hc1]

theorem liveList_delete (s : Scene) (stored ds : List Nat) :
    liveList (deleteNodes s ds) stored
      = (liveList s stored).filter (fun x => decide (x ∉ ds)) := by
  unfold liveList
  rw [List.filter_filter]
  apply List.filter_congr
  intro j hj
  simp only [deleteNodes_nodes, List.mem_filter, decide_eq_true_eq]
  rw [Bool.eq_iff_iff]
  simp only [decide_eq_true_eq, Bool.and_eq_true]
  tauto

theorem take_drop_not_mem (l : List Nat) (k : Nat) (h : l.Nodup) :
    ∀ x ∈ l.take k, x ∉ l.drop k := by
  have h2 := h
  rw [← List.take_append_drop k l] at h2
  have h3 := (List.nodup_append.mp h2).2.2
  exact fun x hx => h3 hx

theorem filter_not_mem_drop (l : List Nat) (k : Nat) (h : l.Nodup) :
    l.filter (fun x => decide (x ∉ l.drop k)) = l.take k := by
  have hsplit := List.take_append_drop k l
  have hd := take_drop_not_mem l k h
  calc l.filter (fun x => decide (x ∉ l.drop k))
      = (l.take k ++ l.drop k).filter (fun x => decide (x ∉ l.drop k)) := by
        rw [hsplit]
    _ = (l.take k).filter (fun x => decide (x ∉ l.drop k))
          ++ (l.drop k).filter (fun x => decide (x ∉ l.drop k)) := by
        rw [List.filter_append]
    _ = l.take k ++ [] := by
        congr 1
        · apply List.filter_eq_self.mpr
          intro x hx
          exact decide_eq_true (hd x hx)
        · apply List.filter_eq_nil_iff.mpr
          intro x hx
          simp only [decide_eq_true_eq, not_not]
          exact hx
    _ = l.take k := List.append_nil _

theorem chainUpdate_spec (c : ChainState) (s : Scene) (hI : ChainInv c s)
    (hN : 1 ≤ c.chain_length) :
    ChainInv (chainUpdate c s).1 (chainUpdate c s).2 ∧
    ((chainView (chainUpdate c s).1 (chainUpdate c s).2).length : Int)
      = c.chain_length ∧
    (∀ j ∈ chainView c s,
      j ∉ chainView (chainUpdate c s).1 (chainUpdate c s).2 →
      j ∉ (chainUpdate c s).2.nodes) ∧
    (chainUpdate c s).1.chain_length = c.chain_length ∧
    (chainUpdate c s).1.parent_joint = c.parent_joint := by
  rcases lt_trichotomy (c.chain_length - ((chainView c s).length : Int)) 0
    with hl | he | hg
  · -- shrink
    obtain ⟨hwf, hnd, hbnd, hch, hpj⟩ := hI
    have h0 : ¬ (0 < c.chain_length - ((chainView c s).length : Int)) := by omega
    have hstep : chainUpdate c s = (c, deleteNodes s
        (pySliceFrom (chainView c s)
          (c.chain_length - ((chainView c s).length : Int)))) := by
      simp only [chainUpdate, chainUpdateChainLength, if_neg h0, if_pos hl]
    rw [hstep]
    have hvnd : (chainView c s).Nodup := hnd.filter _
    have hdrop : pySliceFrom (chainView c s)
        (c.chain_length - ((chainView c s).length : Int))
        = (chainView c s).drop
          ((((chainView c s).length : Int)
            + (c.chain_length - ((chainView c s).length : Int))).toNat) := rfl
    have hview' : chainView c (deleteNodes s
        (pySliceFrom (chainView c s)
          (c.chain_length - ((chainView c s).length : Int))))
        = (chainView c s).take
          ((((chainView c s).length : Int)
            + (c.chain_length - ((chainView c s).length : Int))).toNat) := by
      show liveList _ _ = _
      rw [liveList_delete, hdrop]
      exact filter_not_mem_drop (chainView c s) _ hvnd
    have hksub : ∀ x ∈ (chainView c s).take
        ((((chainView c s).length : Int)
          + (c.chain_length - ((chainView c s).length : Int))).toNat),
        x ∉ pySliceFrom (chainView c s)
          (c.chain_length - ((chainView c s).length : Int)) := by
      rw [hdrop]
      exact take_drop_not_mem _ _ hvnd
    refine ⟨⟨?_, hnd, hbnd, ?_, ?_⟩, ?_, ?_, rfl, rfl⟩
    · constructor
      · intro n hn
        exact hwf.1 n (List.mem_filter.mp hn).1
      · intro e he
        exact hwf.2 e (List.mem_filter.mp he).1
    · rw [show chainView c (deleteNodes s
          (pySliceFrom (chainView c s)
            (c.chain_length - ((chainView c s).length : Int))))
          = (chainView c s).take
            ((((chainView c s).length : Int)
              + (c.chain_length - ((chainView c s).length : Int))).toNat)
          from hview']
      rw [deleteNodes_parents]
      rw [chainedB_congr s.parents _ _ _ ?_]
      · have hsplit := List.take_append_drop
          ((((chainView c s).length : Int)
            + (c.chain_length - ((chainView c s).length : Int))).toNat)
          (chainView c s)
        apply chainedB_prefix s.parents _ ((chainView c s).drop
          ((((chainView c s).length : Int)
            + (c.chain_length - ((chainView c s).length : Int))).toNat))
        rw [hsplit]
        exact hch
      · intro x hx
        exact lookup_filter_pred s.parents
          (fun a => decide (a ∉ pySliceFrom (chainView c s)
            (c.chain_length - ((chainView c s).length : Int)))) x
          (decide_eq_true (hksub x hx))
    · rcases hpjv : c.parent_joint with _ | p
      · rfl
      · rw [hpjv] at hpj
        simp only [pjOkB, Bool.and_eq_true, decide_eq_true_eq] at hpj ⊢
        refine ⟨?_, hpj.2⟩
        apply List.mem_filter.mpr
        refine ⟨hpj.1, decide_eq_true ?_⟩
        intro hmem
        rw [hdrop] at hmem
        exact hpj.2 (List.mem_filter.mp (List.mem_of_mem_drop hmem)).1
    · rw [hview', List.length_take]
      have hlen : ((chainView c s).length : Int) > c.chain_length := by omega
      have : (((chainView c s).length : Int)
          + (c.chain_length - ((chainView c s).length : Int))).toNat
          ≤ (chainView c s).length := by omega
      omega
    · intro j hj hnot
      intro hmem
      apply hnot
      rw [hview']
      have hjnd : j ∉ pySliceFrom (chainView c s)
          (c.chain_length - ((chainView c s).length : Int)) := by
        have := (List.mem_filter.mp hmem).2
        exact of_decide_eq_true this
      rw [hdrop] at hjnd
      have : j ∈ (chainView c s).filter (fun x => decide (x ∉ (chainView c s).drop
          ((((chainView c s).length : Int)
            + (c.chain_length - ((chainView c s).length : Int))).toNat))) :=
        List.mem_filter.mpr ⟨hj, decide_eq_true hjnd⟩
      rw [filter_not_mem_drop _ _ hvnd] at this
      exact this
  · -- already consistent
    have h0 : ¬ (0 < c.chain_length - ((chainView c s).length : Int)) := by omega
    have h1 : ¬ (c.chain_length - ((chainView c s).length : Int) < 0) := by omega
    have hstep : chainUpdate c s = (c, s) := by
      simp only [chainUpdate, chainUpdateChainLength, if_neg h0, if_neg h1]
    rw [hstep]
    refine ⟨hI, ?_, ?_, rfl, rfl⟩
    · show ((chainView c s).length : Int) = c.chain_length
      omega
    · intro j hj hnot
      exact absurd hj hnot
  · -- growth
    have hstep : chainUpdate c s = chainAddLoop
        (c.chain_length - ((chainView c s).length : Int)).toNat (c, s) := by
      simp only [chainUpdate, chainUpdateChainLength, if_pos hg]
    rw [hstep]
    obtain ⟨hInv, hlen, ⟨ext, hext⟩, hcl, hp⟩ :=
      chainAddLoop_spec (c.chain_length - ((chainView c s).length : Int)).toNat
        c s hI
    refine ⟨hInv, ?_, ?_, hcl, hp⟩
    · rw [hlen]
      push_cast
      omega
    · intro j hj hnot
      exfalso
      apply hnot
      rw [hext]
      exact List.mem_append.mpr (Or.inl hj)

/-- A chain whose live joint count already matches `chain_length` is a
fixed point of `update`: nothing is created, deleted or reparented. -/
theorem chainUpdate_noop (c : ChainState) (s : Scene)
    (hlen : ((chainView c s).length : Int) = c.chain_length) :
    chainUpdate c s = (c, s) := by
  have h0 : ¬ (0 < c.chain_length - ((chainView c s).length : Int)) := by omega
  have h1 : ¬ (c.chain_length - ((chainView c s).length : Int) < 0) := by omega
  simp only [chainUpdate, chainUpdateChainLength, if_neg h0, if_neg h1]

theorem liveList_delete_drop (s : Scene) (stored : List Nat) (k : Nat)
    (hnd : (liveList s stored).Nodup) :
    liveList (deleteNodes s ((liveList s stored).drop k)) stored
      = (liveList s stored).take k := by
  rw [liveList_delete]
  exact filter_not_mem_drop _ _ hnd

theorem corrAdd_spec (c : CorrectiveState) (s : Scene) (c' : CorrectiveState)
    (s' : Scene) (hI : CorrInv c s)
    (heq : corrAddDeformJoint c s = (c', s')) :
    c' = { c with deform_joints := c.deform_joints ++ [s.nextId] } ∧
    corrView c' s' = corrView c s ++ [s.nextId] ∧
    CorrInv c' s' ∧ s'.nextId = s.nextId + 1 := by
  obtain ⟨hwf, hnd, hbnd, hpj⟩ := hI
  have hbne : ∀ x ∈ c.deform_joints, x ≠ s.nextId := fun x hx =>
    Nat.ne_of_lt (hbnd x hx)
  have hfresh := liveList_snoc_fresh s c.deform_joints
    (s.nodes ++ [s.nextId]) s.nextId hbne (fun x => by simp)
  have hnodes' : ∀ n ∈ s.nodes ++ [s.nextId], n < s.nextId + 1 := by
    intro n hn
    rcases List.mem_append.mp hn with h1 | h1
    · exact Nat.lt_succ_of_lt (hwf.1 n h1)
    · simp only [List.mem_singleton] at h1
      omega
  have hnd' : (c.deform_joints ++ [s.nextId]).Nodup :=
    nodup_snoc _ _ hnd (fun hx => (hbne _ hx) rfl)
  have hbnd' : ∀ x ∈ c.deform_joints ++ [s.nextId], x < s.nextId + 1 := by
    intro x hx
    rcases List.mem_append.mp hx with h1 | h1
    · exact Nat.lt_succ_of_lt (hbnd x h1)
    · simp only [List.mem_singleton] at h1
      omega
  have hpj' := pjOkB_snoc c.parent_joint s.nodes c.deform_joints s.nextId
    hpj hwf.1
  rcases hpar : c.parent_joint with _ | p
  · simp only [corrAddDeformJoint, baseAddDeformJoint, createNode, hpar,
      Option.orElse, Prod.mk.injEq] at heq
    obtain ⟨hc, hs⟩ := heq
    subst hc
    subst hs
    rw [hpar] at hpj'
    refine ⟨rfl, hfresh, ⟨⟨hnodes', ?_⟩, hnd', hbnd', ?_⟩, rfl⟩
    · intro e he
      exact Nat.lt_succ_of_lt (hwf.2 e he)
    · exact hpj'
  · simp only [corrAddDeformJoint, baseAddDeformJoint, createNode, hpar,
      Option.orElse, Prod.mk.injEq] at heq
    obtain ⟨hc, hs⟩ := heq
    subst hc
    subst hs
    rw [hpar] at hpj'
    refine ⟨rfl, hfresh, ⟨⟨hnodes', ?_⟩, hnd', hbnd', ?_⟩, rfl⟩
    · intro e he
      rw [reparent_parents] at he
      rcases List.mem_cons.mp he with h1 | h1
      · rw [h1]
        exact Nat.lt_succ_self s.nextId
      · exact Nat.lt_succ_of_lt (hwf.2 e (List.mem_filter.mp h1).1)
    · exact hpj'

theorem corrAddLoop_spec (k : Nat) :
    ∀ (c : CorrectiveState) (s : Scene), CorrInv c s →
      CorrInv (corrAddLoop k (c, s)).1 (corrAddLoop k (c, s)).2 ∧
      (corrView (corrAddLoop k (c, s)).1 (corrAddLoop k (c, s)).2).length
        = (corrView c s).length + k ∧
      (corrAddLoop k (c, s)).1.joint_count = c.joint_count ∧
      (corrAddLoop k (c, s)).1.parent_joint = c.parent_joint := by
  induction k with
  | zero =>
    intro c s h
    exact ⟨h, rfl, rfl, rfl⟩
  | succ k ih =>
    intro c s h
    rcases heq : corrAddDeformJoint c s with ⟨c1, s1⟩
    obtain ⟨hc1, hview, hI1, hnext⟩ := corrAdd_spec c s c1 s1 h heq
    have hstep : corrAddLoop (k + 1) (c, s) = corrAddLoop k (c1, s1) := by
      simp only [corrAddLoop, heq]
    rw [hstep]
    obtain ⟨ha, hb, hcl, hpjout⟩ := ih c1 s1 hI1
    refine ⟨ha, ?_, ?_, ?_⟩
    · rw [hb, hview]
      simp only [List.length_append, List.length_singleton]
      omega
    · rw [hcl, hc1]
    · rw [hpjout, hc1]

theorem corrUpdate_len (c : CorrectiveState) (rig : List OtherModule) (s : Scene)
    (hI : CorrInv c s) :
    ((corrView (corrUpdate c rig s).1 (corrUpdate c rig s).2.2.1).length : Int)
      = max c.joint_count 0 ∧
    (corrUpdate c rig s).1.joint_count = c.joint_count := by
  rcases lt_trichotomy (c.joint_count - ((corrView c s).length : Int)) 0
    with hl | he | hg
  · have h0 : ¬ (0 < c.joint_count - ((corrView c s).length : Int)) := by omega
    rcases hcas : cascadeAll
        (pySliceFrom (corrView c s) (c.joint_count - ((corrView c s).length : Int)))
        (((pySliceTo (corrView c s)
            (((corrView c s).length : Int)
              + (c.joint_count - ((corrView c s).length : Int)))).getLast?).orElse
          (fun _ => c.parent_joint)) rig with ⟨rig', evs⟩
    have hstep : corrUpdate c rig s = (c, rig', deleteNodes s
        (pySliceFrom (corrView c s)
          (c.joint_count - ((corrView c s).length : Int))),
        evs ++ (pySliceFrom (corrView c s)
          (c.joint_count - ((corrView c s).length : Int))).map
            REvent.deletedNode) := by
      simp only [corrUpdate, if_neg h0, if_pos hl, hcas]
    rw [hstep]
    have hvnd : (corrView c s).Nodup := hI.2.1.filter _
    have hview' : corrView c (deleteNodes s
        (pySliceFrom (corrView c s)
          (c.joint_count - ((corrView c s).length : Int))))
        = (corrView c s).take
          ((((corrView c s).length : Int)
            + (c.joint_count - ((corrView c s).length : Int))).toNat) :=
      liveList_delete_drop s c.deform_joints _ hvnd
    constructor
    · show ((corrView c (deleteNodes s _)).length : Int) = _
      rw [hview', List.length_take]
      have : (((corrView c s).length : Int)
          + (c.joint_count - ((corrView c s).length : Int))).toNat
          ≤ (corrView c s).length := by omega
      omega
    · rfl
  · have h0 : ¬ (0 < c.joint_count - ((corrView c s).length : Int)) := by omega
    have h1 : ¬ (c.joint_count - ((corrView c s).length : Int) < 0) := by omega
    have hstep : corrUpdate c rig s = (c, rig, s, []) := by
      simp only [corrUpdate, if_neg h0, if_neg h1]
    rw [hstep]
    constructor
    · show ((corrView c s).length : Int) = _
      omega
    · rfl
  · have hstep : corrUpdate c rig s = ((corrAddLoop
        (c.joint_count - ((corrView c s).length : Int)).toNat (c, s)).1, rig,
        (corrAddLoop
          (c.joint_count - ((corrView c s).length : Int)).toNat (c, s)).2, []) := by
      simp only [corrUpdate, if_pos hg]
    rw [hstep]
    obtain ⟨hInv, hlen, hjc, hp⟩ := corrAddLoop_spec
      (c.joint_count - ((corrView c s).length : Int)).toNat c s hI
    constructor
    · show ((corrView (corrAddLoop _ (c, s)).1 (corrAddLoop _ (c, s)).2).length : Int) = _
      rw [hlen]
      push_cast
      omega
    · exact hjc

/-- A corrective whose live joint count already matches `joint_count`
is a fixed point of `update`: no cascade, no deletion, empty trace. -/
theorem corrUpdate_noop (c : CorrectiveState) (rig : List OtherModule) (s : Scene)
    (hlen : ((corrView c s).length : Int) = c.joint_count) :
    corrUpdate c rig s = (c, rig, s, []) := by
  have h0 : ¬ (0 < c.joint_count - ((corrView c s).length : Int)) := by omega
  have h1 : ¬ (c.joint_count - ((corrView c s).length : Int) < 0) := by omega
  simp only [corrUpdate, if_neg h0, if_neg h1]

/-- Is an event a scene-graph deletion? -/
def isDeleteEv : REvent → Bool
  | REvent.deletedNode _ => true
  | _ => false

/-- The trailing slice of joints `Corrective.update` deletes on a
shrink (`joints[diff:]`). -/
def corrDoomed (c : CorrectiveState) (s : Scene) : List Nat :=
  pySliceFrom (corrView c s) (c.joint_count - ((corrView c s).length : Int))

/-- The replacement parent a shrink assigns to dependent modules: the
last surviving joint, or the corrective's own `parent_joint` when the
list empties. -/
def corrNewParent (c : CorrectiveState) (s : Scene) : Option Nat :=
  ((pySliceTo (corrView c s)
    (((corrView c s).length : Int)
      + (c.joint_count - ((corrView c s).length : Int)))).getLast?).orElse
    (fun _ => c.parent_joint)

theorem deleteNodes_not_mem (s : Scene) (ns : List Nat) (j : Nat) (hj : j ∈ ns) :
    j ∉ (deleteNodes s ns).nodes := by
  intro hmem
  have := (List.mem_filter.mp hmem).2
  exact (of_decide_eq_true this) hj

theorem cascadeAll_spec (doomed : List Nat) (npj : Option Nat)
    (rig : List OtherModule) :
    (cascadeAll doomed npj rig).1
      = rig.map (fun m => if optMem m.parent_joint doomed then
          { m with parent_joint := npj } else m) ∧
    (∀ e ∈ (cascadeAll doomed npj rig).2, isDeleteEv e = false) ∧
    (∀ m ∈ rig, optMem m.parent_joint doomed = true →
      REvent.setParentJointField m.name npj ∈ (cascadeAll doomed npj rig).2 ∧
      REvent.moduleUpdated m.name ∈ (cascadeAll doomed npj rig).2) := by
  induction rig with
  | nil =>
    refine ⟨rfl, ?_, ?_⟩ <;> simp [cascadeAll]
  | cons m rest ih =>
    obtain ⟨ih1, ih2, ih3⟩ := ih
    rcases hrec : cascadeAll doomed npj rest with ⟨rest', evs⟩
    rw [hrec] at ih1 ih2 ih3
    by_cases hm : optMem m.parent_joint doomed = true
    · have hstep : cascadeAll doomed npj (m :: rest)
          = ({ m with parent_joint := npj } :: rest',
             REvent.setParentJointField m.name npj
               :: REvent.moduleUpdated m.name :: evs) := by
        simp only [cascadeAll, hm, if_true, hrec]
      rw [hstep]
      refine ⟨?_, ?_, ?_⟩
      · simp only [List.map_cons, if_pos hm]
        exact congrArg (List.cons _) ih1
      · intro e he
        rcases List.mem_cons.mp he with h1 | h1
        · rw [h1]; rfl
        · rcases List.mem_cons.mp h1 with h2 | h2
          · rw [h2]; rfl
          · exact ih2 e h2
      · intro m' hm' hcond
        rcases List.mem_cons.mp hm' with h1 | h1
        · subst h1
          exact ⟨List.mem_cons_self _ _,
            List.mem_cons_of_mem _ (List.mem_cons_self _ _)⟩
        · obtain ⟨ha, hb⟩ := ih3 m' h1 hcond
          exact ⟨List.mem_cons_of_mem _ (List.mem_cons_of_mem _ ha),
            List.mem_cons_of_mem _ (List.mem_cons_of_mem _ hb)⟩
    · have hstep : cascadeAll doomed npj (m :: rest) = (m :: rest', evs) := by
        simp only [cascadeAll, hm, if_false, hrec, Bool.false_eq_true]
      rw [hstep]
      refine ⟨?_, ih2, ?_⟩
      · simp only [List.map_cons, if_neg hm]
        exact congrArg (List.cons _) ih1
      · intro m' hm' hcond
        rcases List.mem_cons.mp hm' with h1 | h1
        · subst h1
          exact absurd hcond hm
        · exact ih3 m' h1 hcond

theorem lookupParent_reparent_isSome (s : Scene) (j p x : Nat)
    (h : (lookupParent s x).isSome = true) :
    (lookupParent (reparent s j p) x).isSome = true := by
  rw [lookupParent_reparent]
  by_cases hx : x = j
  · simp [hx]
  · simp only [if_neg hx]
    exact h

theorem cupjLoop_ok (p : Nat) :
    ∀ (l : List Nat) (s : Scene),
      (∀ j ∈ l, (lookupParent s j).isSome = true) →
      ∃ s', cupjLoop (some p) l s = Except.ok s' := by
  intro l
  induction l with
  | nil =>
    intro s _
    exact ⟨s, rfl⟩
  | cons j rest ih =>
    intro s h
    have hj := h j (List.mem_cons_self _ _)
    rcases hlp : lookupParent s j with _ | actual
    · rw [hlp] at hj
      simp at hj
    · by_cases heq2 : (some p : Option Nat) = some actual
      · have hrest : ∀ x ∈ rest, (lookupParent s x).isSome = true :=
          fun x hx => h x (List.mem_cons_of_mem _ hx)
        obtain ⟨s', hs'⟩ := ih s hrest
        refine ⟨s', ?_⟩
        simp only [cupjLoop, hlp]
        rw [if_pos heq2]
        exact hs'
      · have hrest : ∀ x ∈ rest, (lookupParent (reparent s j p) x).isSome = true :=
          fun x hx =>
            lookupParent_reparent_isSome s j p x (h x (List.mem_cons_of_mem _ hx))
        obtain ⟨s', hs'⟩ := ih (reparent s j p) hrest
        refine ⟨s', ?_⟩
        simp only [cupjLoop, hlp]
        rw [if_neg heq2]
        exact hs'

theorem createLocators_fields (c : CorrectiveState) (s : Scene)
    (c' : CorrectiveState) (s' : Scene)
    (h : createLocators c s = Except.ok (c', s')) :
    c'.vector_base = c.vector_base ∧ c'.joint_count = c.joint_count ∧
    c'.vector_tip = c.vector_tip ∧ c'.deform_joints = c.deform_joints ∧
    c'.parent_joint = c.parent_joint ∧ c'.node_mult = c.node_mult ∧
    (∃ a, c'.vector_base_loc = some a) ∧ (∃ b, c'.vector_tip_loc = some b) ∧
    (∃ d, c'.orig_pose_vector_tip_loc = some d) ∧
    (∃ v, c.vector_base = some v) := by
  rcases hvb : c.vector_base with _ | vb
  · rw [createLocators.eq_def, hvb] at h
    exact Except.noConfusion h
  · rcases hvt : c.vector_tip with _ | vt
    · rw [createLocators.eq_def, hvb] at h
      simp only [hvt, Except.ok.injEq, Prod.mk.injEq] at h
      obtain ⟨hc, hs⟩ := h
      subst hc
      exact ⟨rfl, rfl, rfl, rfl, rfl, rfl, ⟨_, rfl⟩, ⟨_, rfl⟩, ⟨_, rfl⟩, ⟨vb, rfl⟩⟩
    · rw [createLocators.eq_def, hvb] at h
      simp only [hvt, Except.ok.injEq, Prod.mk.injEq] at h
      obtain ⟨hc, hs⟩ := h
      subst hc
      exact ⟨rfl, rfl, rfl, rfl, rfl, rfl, ⟨_, rfl⟩, ⟨_, rfl⟩, ⟨_, rfl⟩, ⟨vb, rfl⟩⟩

theorem buildAngleReader_fields (c : CorrectiveState) (s : Scene) (vr : Nat)
    (c' : CorrectiveState) (s' : Scene)
    (h : buildAngleReader c s = Except.ok (vr, c', s')) :
    c'.vector_base = c.vector_base ∧ c'.joint_count = c.joint_count ∧
    c'.vector_tip = c.vector_tip ∧ c'.deform_joints = c.deform_joints ∧
    c'.parent_joint = c.parent_joint ∧ (∃ nm, c'.node_mult = some nm) := by
  rcases h1 : c.vector_tip_loc with _ | vtl <;>
    rcases h2 : c.vector_base_loc with _ | vbl <;>
    rcases h3 : c.orig_pose_vector_tip_loc with _ | optl <;>
    rw [buildAngleReader.eq_def, h1, h2, h3] at h
  all_goals
    first
    | exact Except.noConfusion h
    | (simp only [Except.ok.injEq, Prod.mk.injEq] at h
       obtain ⟨hvr, hc, hs⟩ := h
       subst hc
       exact ⟨rfl, rfl, rfl, rfl, rfl, ⟨_, rfl⟩⟩)

theorem corrBuild_fields (c : CorrectiveState) (s : Scene)
    (c' : CorrectiveState) (s' : Scene)
    (h : corrBuild c s = Except.ok (c', s')) :
    c'.vector_base
      = (if c.vector_base = none then c.parent_joint else c.vector_base) ∧
    c'.joint_count = c.joint_count ∧ c'.vector_tip = c.vector_tip ∧
    c'.deform_joints = c.deform_joints ∧ c'.parent_joint = c.parent_joint ∧
    (∃ v, c'.vector_base = some v) := by
  simp only [corrBuild] at h
  set c0 := if c.vector_base = none
    then { c with vector_base := c.parent_joint } else c with hc0
  rcases hcl : createLocators c0 s with e | ⟨c1, s1⟩
  · simp only [hcl] at h
    exact Except.noConfusion h
  · simp only [hcl] at h
    rcases har : buildAngleReader c1 s1 with e | ⟨vr, c2, s2⟩
    · simp only [har] at h
      exact Except.noConfusion h
    · simp only [har] at h
      rcases hnm : c2.node_mult with _ | nm
      · simp only [hnm] at h
        exact Except.noConfusion h
      · simp only [hnm, Except.ok.injEq, Prod.mk.injEq] at h
        obtain ⟨hc', hs'⟩ := h
        subst hc'
        obtain ⟨a1, _, a3, a4, a5, _, _, _, _, ⟨v0, hv0⟩⟩ :=
          createLocators_fields c0 s c1 s1 hcl
        obtain ⟨b1, b2, b3, b4, b5, _⟩ :=
          buildAngleReader_fields c1 s1 vr c2 s2 har
    -- `joint_count` for c1 from createLocators, threaded to c2
        obtain ⟨_, a2, _, _, _, _, _, _, _, _⟩ :=
          createLocators_fields c0 s c1 s1 hcl
        have hvb0 : c0.vector_base
            = (if c.vector_base = none then c.parent_joint else c.vector_base) := by
          by_cases hv : c.vector_base = none
          · rw [hc0, if_pos hv, if_pos hv]
          · rw [hc0, if_neg hv, if_neg hv]
        have hjc0 : c0.joint_count = c.joint_count := by
          by_cases hv : c.vector_base = none
          · rw [hc0, if_pos hv]
          · rw [hc0, if_neg hv]
        have hvt0 : c0.vector_tip = c.vector_tip := by
          by_cases hv : c.vector_base = none
          · rw [hc0, if_pos hv]
          · rw [hc0, if_neg hv]
        have hdj0 : c0.deform_joints = c.deform_joints := by
          by_cases hv : c.vector_base = none
          · rw [hc0, if_pos hv]
          · rw [hc0, if_neg hv]
        have hpj0 : c0.parent_joint = c.parent_joint := by
          by_cases hv : c.vector_base = none
          · rw [hc0, if_pos hv]
          · rw [hc0, if_neg hv]
        refine ⟨?_, ?_, ?_, ?_, ?_, ?_⟩
        · rw [b1, a1, hvb0]
        · rw [b2, a2, hjc0]
        · rw [b3, a3, hvt0]
        · rw [b4, a4, hdj0]
        · rw [b5, a5, hpj0]
        · exact ⟨v0, by rw [b1, a1, hv0]⟩

theorem corrBuild_fallback_eq (c : CorrectiveState) (s : Scene) (p : Nat)
    (h0 : c.vector_base = none) (hp : c.parent_joint = some p) :
    corrBuild c s = corrBuild { c with vector_base := some p } s := by
  rw [corrBuild.eq_def, corrBuild.eq_def]
  rw [if_pos h0, if_neg (by simp)]
  rw [hp]

theorem corrBuild_ok (c : CorrectiveState) (s : Scene) (v : Nat)
    (h : c.vector_base = some v) :
    ∃ r, corrBuild c s = Except.ok r := by
  rcases hr : corrBuild c s with e | r
  · exfalso
    rcases hvt : c.vector_tip with _ | vt <;>
      simp [corrBuild, createLocators, buildAngleReader, h, hvt] at hr
  · exact ⟨r, rfl⟩

instance (c : ChainState) (s : Scene) : Decidable (ChainInv c s) := by
  unfold ChainInv sceneWf
  exact inferInstance

instance (c : CorrectiveState) (s : Scene) : Decidable (CorrInv c s) := by
  unfold CorrInv sceneWf
  exact inferInstance

/-! ## Concrete instances used as witnesses -/

/-- A small chain: one live joint (node 1) under the parent joint
(node 0), with `chain_length = 3` pending reconciliation. -/
def chainDemoS : Scene :=
  { nextId := 2, nodes := [0, 1]
    types := [(0, NodeType.joint), (1, NodeType.joint)]
    names := [(0, "root"), (1, "j1")]
    parents := [(1, 0)]
    conns := [], attrsQ := [], attrsB := [], ptCons := [], parCons := []
    matCons := [], snaps := [], locked := [], customAttrs := []
    created := 0, deleted := 0 }

/-- The chain module owning joint 1 of `chainDemoS`. -/
def chainDemoC : ChainState :=
  { chain_length := 3, deform_joints_list := [1], parent_joint := some 0 }

/-- A corrective with three joints (1, 2, 3) under joint 0, about to
shrink to one joint. -/
def cascDemoS : Scene :=
  { nextId := 4, nodes := [0, 1, 2, 3]
    types := [(0, NodeType.joint), (1, NodeType.joint), (2, NodeType.joint),
      (3, NodeType.joint)]
    names := []
    parents := [(1, 0), (2, 0), (3, 0)]
    conns := [], attrsQ := [], attrsB := [], ptCons := [], parCons := []
    matCons := [], snaps := [], locked := [], customAttrs := []
    created := 0, deleted := 0 }

/-- The shrinking corrective module of `cascDemoS`. -/
def cascDemoC : CorrectiveState :=
  { joint_count := 1, vector_base := none, vector_tip := none
    vector_base_loc := none, vector_tip_loc := none
    orig_pose_vector_tip_loc := none
    deform_joints := [1, 2, 3], parent_joint := some 0
    controls_group := 0, extras_group := 0, node_mult := none }

/-- A dependent module whose `parent_joint` is the corrective's third
joint, which the shrink deletes. -/
def cascDemoRig : List OtherModule :=
  [{ name := "B", parent_joint := some 3 }]

/-! ## C1 -/

/-- Claim C1: for every Chain module in a reachable state, running
`update()` with `chain_length = N ≥ 1` leaves an owned deform-joint
list of exactly N entries whose scene-graph parents form the chain
(each joint under its predecessor, the first under `parent_joint`),
and every joint dropped from the owned list is also gone from the
scene graph. -/
theorem chain_update_reconciles (c : ChainState) (s : Scene)
    (hI : ChainInv c s) (hN : 1 ≤ c.chain_length) :
    ((chainView (chainUpdate c s).1 (chainUpdate c s).2).length : Int)
      = c.chain_length ∧
    chainedB (chainUpdate c s).2.parents (chainUpdate c s).1.parent_joint
      (chainView (chainUpdate c s).1 (chainUpdate c s).2) = true ∧
    (∀ j ∈ chainView c s,
      j ∉ chainView (chainUpdate c s).1 (chainUpdate c s).2 →
      j ∉ (chainUpdate c s).2.nodes) := by
  obtain ⟨hInv, hlen, hrem, _, _⟩ := chainUpdate_spec c s hI hN
  exact ⟨hlen, hInv.2.2.2.1, hrem⟩

/-- Witness for C1 on the concrete chain (grow from 1 joint to 3). -/
theorem chain_update_reconciles_witness :
    ChainInv chainDemoC chainDemoS ∧ 1 ≤ chainDemoC.chain_length ∧
    (((chainView (chainUpdate chainDemoC chainDemoS).1
          (chainUpdate chainDemoC chainDemoS).2).length : Int)
        = chainDemoC.chain_length ∧
      chainedB (chainUpdate chainDemoC chainDemoS).2.parents
        (chainUpdate chainDemoC chainDemoS).1.parent_joint
        (chainView (chainUpdate chainDemoC chainDemoS).1
          (chainUpdate chainDemoC chainDemoS).2) = true ∧
      (∀ j ∈ chainView chainDemoC chainDemoS,
        j ∉ chainView (chainUpdate chainDemoC chainDemoS).1
            (chainUpdate chainDemoC chainDemoS).2 →
        j ∉ (chainUpdate chainDemoC chainDemoS).2.nodes)) :=
  ⟨by decide, by decide,
    chain_update_reconciles chainDemoC chainDemoS (by decide) (by decide)⟩

/-! ## C2 -/

/-- Claim C2: when a Corrective shrinks, every rig module whose
`parent_joint` is one of the doomed joints is redirected to the last
surviving joint (or to the corrective's own `parent_joint` when the
list empties) and its `update()` is called, and all of these calls sit
strictly before every scene-graph deletion in the trace of the
operation. -/
theorem corrective_shrink_cascade (c : CorrectiveState)
    (rig : List OtherModule) (s : Scene)
    (hshrink : c.joint_count < ((corrView c s).length : Int)) :
    ∃ pre,
      (corrUpdate c rig s).2.2.2
        = pre ++ (corrDoomed c s).map REvent.deletedNode ∧
      (∀ e ∈ pre, isDeleteEv e = false) ∧
      (corrUpdate c rig s).2.1 = rig.map (fun m =>
        if optMem m.parent_joint (corrDoomed c s) then
          { m with parent_joint := corrNewParent c s } else m) ∧
      (∀ m ∈ rig, optMem m.parent_joint (corrDoomed c s) = true →
        REvent.setParentJointField m.name (corrNewParent c s) ∈ pre ∧
        REvent.moduleUpdated m.name ∈ pre) ∧
      (∀ j ∈ corrDoomed c s, j ∉ (corrUpdate c rig s).2.2.1.nodes) := by
  have h0 : ¬ (0 < c.joint_count - ((corrView c s).length : Int)) := by omega
  have hl : c.joint_count - ((corrView c s).length : Int) < 0 := by omega
  rcases hcas : cascadeAll (corrDoomed c s) (corrNewParent c s) rig
    with ⟨rig', evs⟩
  have hcas' : cascadeAll
      (pySliceFrom (corrView c s)
        (c.joint_count - ((corrView c s).length : Int)))
      (((pySliceTo (corrView c s)
          (((corrView c s).length : Int)
            + (c.joint_count - ((corrView c s).length : Int)))).getLast?).orElse
        (fun _ => c.parent_joint)) rig = (rig', evs) := hcas
  have hstep : corrUpdate c rig s = (c, rig',
      deleteNodes s (corrDoomed c s),
      evs ++ (corrDoomed c s).map REvent.deletedNode) := by
    simp only [corrUpdate, if_neg h0, if_pos hl, hcas']
    rfl
  obtain ⟨hmap, hnodel, hev⟩ :=
    cascadeAll_spec (corrDoomed c s) (corrNewParent c s) rig
  rw [hcas] at hmap hnodel hev
  refine ⟨evs, ?_, ?_, ?_, ?_, ?_⟩
  · rw [hstep]
  · exact fun e he => hnodel e he
  · rw [hstep]
    exact hmap
  · exact fun m hm hcond => hev m hm hcond
  · intro j hj
    rw [hstep]
    exact deleteNodes_not_mem s (corrDoomed c s) j hj

/-- Witness for C2: shrinking the concrete corrective from three joints
to one, with a dependent module parented on the doomed joint 3. -/
theorem corrective_shrink_cascade_witness :
    cascDemoC.joint_count < ((corrView cascDemoC cascDemoS).length : Int) ∧
    (∃ pre,
      (corrUpdate cascDemoC cascDemoRig cascDemoS).2.2.2
        = pre ++ (corrDoomed cascDemoC cascDemoS).map REvent.deletedNode ∧
      (∀ e ∈ pre, isDeleteEv e = false) ∧
      (corrUpdate cascDemoC cascDemoRig cascDemoS).2.1
        = cascDemoRig.map (fun m =>
          if optMem m.parent_joint (corrDoomed cascDemoC cascDemoS) then
            { m with parent_joint := corrNewParent cascDemoC cascDemoS } else m) ∧
      (∀ m ∈ cascDemoRig,
        optMem m.parent_joint (corrDoomed cascDemoC cascDemoS) = true →
        REvent.setParentJointField m.name
          (corrNewParent cascDemoC cascDemoS) ∈ pre ∧
        REvent.moduleUpdated m.name ∈ pre) ∧
      (∀ j ∈ corrDoomed cascDemoC cascDemoS,
        j ∉ (corrUpdate cascDemoC cascDemoRig cascDemoS).2.2.1.nodes)) :=
  ⟨by decide,
    corrective_shrink_cascade cascDemoC cascDemoRig cascDemoS (by decide)⟩

/-! ## C3 -/

/-- Claim C3: `update()` converges for both modules — running it a
second time with no field change in between returns the states
unchanged (so the second call creates nothing, deletes nothing, and
leaves the owned joint list as it was; the corrective's second call
also emits no events). -/
theorem update_idempotent (c : ChainState) (s : Scene) (hI : ChainInv c s)
    (hN : 1 ≤ c.chain_length) (c2 : CorrectiveState)
    (rig : List OtherModule) (s2 : Scene) (hI2 : CorrInv c2 s2)
    (hN2 : 1 ≤ c2.joint_count) :
    chainUpdate (chainUpdate c s).1 (chainUpdate c s).2 = chainUpdate c s ∧
    corrUpdate (corrUpdate c2 rig s2).1 (corrUpdate c2 rig s2).2.1
        (corrUpdate c2 rig s2).2.2.1
      = ((corrUpdate c2 rig s2).1, (corrUpdate c2 rig s2).2.1,
         (corrUpdate c2 rig s2).2.2.1, ([] : List REvent)) := by
  constructor
  · obtain ⟨_, hlen, _, hcl, _⟩ := chainUpdate_spec c s hI hN
    exact chainUpdate_noop _ _ (by rw [hlen, hcl])
  · obtain ⟨hlen2, hjc⟩ := corrUpdate_len c2 rig s2 hI2
    exact corrUpdate_noop _ _ _ (by rw [hjc]; omega)

/-- Witness for C3 on the concrete chain and corrective. -/
theorem update_idempotent_witness :
    ChainInv chainDemoC chainDemoS ∧ 1 ≤ chainDemoC.chain_length ∧
    CorrInv demoCorr demoScene ∧ 1 ≤ demoCorr.joint_count ∧
    (chainUpdate (chainUpdate chainDemoC chainDemoS).1
        (chainUpdate chainDemoC chainDemoS).2
      = chainUpdate chainDemoC chainDemoS ∧
    corrUpdate (corrUpdate demoCorr [] demoScene).1
        (corrUpdate demoCorr [] demoScene).2.1
        (corrUpdate demoCorr [] demoScene).2.2.1
      = ((corrUpdate demoCorr [] demoScene).1,
         (corrUpdate demoCorr [] demoScene).2.1,
         (corrUpdate demoCorr [] demoScene).2.2.1, ([] : List REvent))) :=
  ⟨by decide, by decide, by decide, by decide,
    update_idempotent chainDemoC chainDemoS (by decide) (by decide)
      demoCorr [] demoScene (by decide) (by decide)⟩

/-! ## C4 -/

/-- The concrete instance after `create_locators` alone. -/
def demoLoc : CorrectiveState × Scene :=
  match createLocators demoCorr demoScene with
  | Except.ok r => r
  | Except.error _ => (demoCorr, demoScene)

/-- Claim C4 as stated is false on the code: at the concrete instance,
`create_locators` leaves the `orig_pose_vector_tip` locator (node 7)
parented under the `vectorsLocalSpace` group (node 4), not under the
`vector_base` locator (node 5) — line 230 of `corrective.py` reparents
it into the group after setting the rest offset. -/
theorem orig_pose_tip_parent_cex :
    createLocators demoCorr demoScene = Except.ok demoLoc ∧
    demoLoc.1.orig_pose_vector_tip_loc = some 7 ∧
    demoLoc.1.vector_base_loc = some 5 ∧
    lookupParent demoLoc.2 7 = some 4 ∧
    lookupParent demoLoc.2 7 ≠ some 5 := by
  refine ⟨rfl, rfl, rfl, rfl, by decide⟩

/-- Claim C4 (amended): after `create_locators`, the
`orig_pose_vector_tip` locator's scene-graph parent is the
non-inheriting `vectorsLocalSpace` group, not the base locator — it is
parented under the base locator only temporarily, while its one-unit
`+X` rest offset is set (the stored `translateX` is 1), and is then
reparented into the group — and no constraint of any kind drives it.
Verified on the concrete instance: node 7 is the rest-pose tip
locator, node 4 the locator-space group. -/
theorem orig_pose_tip_rest_spec :
    demoLoc.1.orig_pose_vector_tip_loc = some 7 ∧
    lookupParent demoLoc.2 7 = some 4 ∧
    demoLoc.2.types.lookup 4 = some NodeType.transform ∧
    demoLoc.2.names.lookup 4 = some ("vectorsLocalSpace") ∧
    demoLoc.2.attrsQ.lookup (7, "translateX") = some 1 ∧
    (∀ e ∈ demoLoc.2.ptCons, e.2 ≠ 7) ∧
    (∀ e ∈ demoLoc.2.parCons, e.2 ≠ 7) ∧
    (∀ e ∈ demoLoc.2.matCons, e.2.1 ≠ 7) := by
  refine ⟨rfl, rfl, rfl, rfl, rfl, ?_, ?_, ?_⟩ <;> decide

/-! ## C5 -/

/-- Claim C5: on the concrete instance, for arbitrary locator
translations and an arbitrary angle-between capability, the node
returned by `_build_angle_reader` outputs, per axis, the matching
component of the rotation axis of `angleBetween (tip - base)
(orig - base)` multiplied by the angle magnitude and divided by 180 —
i.e. the network computes `source = vector_tip_loc - vector_base_loc`,
`target = orig_pose_vector_tip_loc - vector_base_loc`, feeds both into
the angle-between operation, scales the axis by the angle and
normalises by 180. -/
theorem angle_reader_network_spec (ab : AngleFun) (tip base orig : Vec3) :
    evalAttr ab demoAR.2.2 (demoEnv tip base orig) 60 (demoAR.1, "outputX")
      = some (MVal.num ((angPair ab tip base orig).2.x
          * (angPair ab tip base orig).1 / 180)) ∧
    evalAttr ab demoAR.2.2 (demoEnv tip base orig) 60 (demoAR.1, "outputY")
      = some (MVal.num ((angPair ab tip base orig).2.y
          * (angPair ab tip base orig).1 / 180)) ∧
    evalAttr ab demoAR.2.2 (demoEnv tip base orig) 60 (demoAR.1, "outputZ")
      = some (MVal.num ((angPair ab tip base orig).2.z
          * (angPair ab tip base orig).1 / 180)) := by
  refine ⟨?_, ?_, ?_⟩ <;> rfl

/-! ## C6 -/

/-- The normalised per-axis driving value the angle reader produces:
axis component times angle magnitude, divided by 180. -/
def drivingValue (ab : AngleFun) (tip base orig : Vec3)
    (axisComp : Vec3 → ℚ) : ℚ :=
  axisComp (angPair ab tip base orig).2 * (angPair ab tip base orig).1 / 180

/-- Claim C6: on the fully built concrete instance, for each tested
angle axis (Y on nodes 16/17/19, Z on nodes 20/21/23), the network
computes `positive_offset = driving_value * offsetPositive` and
`negative_offset = (-driving_value) * offsetNegative` componentwise
over the three translate axes, and the conditional selects the
positive candidate exactly when the driving value is `≥ 0`. -/
theorem offset_selection_network_spec (ab : AngleFun)
    (tip base orig oP oN : Vec3) :
    (evalAttr ab demoBuilt.2 (demoEnvB tip base orig oP oN) 80 (16, "output")
      = some (MVal.vec (vmul
          ⟨drivingValue ab tip base orig Vec3.y,
           drivingValue ab tip base orig Vec3.y,
           drivingValue ab tip base orig Vec3.y⟩ oP)) ∧
    evalAttr ab demoBuilt.2 (demoEnvB tip base orig oP oN) 80 (17, "output")
      = some (MVal.vec (vmul
          ⟨-drivingValue ab tip base orig Vec3.y,
           -drivingValue ab tip base orig Vec3.y,
           -drivingValue ab tip base orig Vec3.y⟩ oN)) ∧
    evalAttr ab demoBuilt.2 (demoEnvB tip base orig oP oN) 80 (19, "outColor")
      = some (MVal.vec
          (if 0 ≤ drivingValue ab tip base orig Vec3.y then
            vmul ⟨drivingValue ab tip base orig Vec3.y,
              drivingValue ab tip base orig Vec3.y,
              drivingValue ab tip base orig Vec3.y⟩ oP
          else
            vmul ⟨-drivingValue ab tip base orig Vec3.y,
              -drivingValue ab tip base orig Vec3.y,
              -drivingValue ab tip base orig Vec3.y⟩ oN))) ∧
    (evalAttr ab demoBuilt.2 (demoEnvB tip base orig oP oN) 80 (20, "output")
      = some (MVal.vec (vmul
          ⟨drivingValue ab tip base orig Vec3.z,
           drivingValue ab tip base orig Vec3.z,
           drivingValue ab tip base orig Vec3.z⟩ oP)) ∧
    evalAttr ab demoBuilt.2 (demoEnvB tip base orig oP oN) 80 (21, "output")
      = some (MVal.vec (vmul
          ⟨-drivingValue ab tip base orig Vec3.z,
           -drivingValue ab tip base orig Vec3.z,
           -drivingValue ab tip base orig Vec3.z⟩ oN)) ∧
    evalAttr ab demoBuilt.2 (demoEnvB tip base orig oP oN) 80 (23, "outColor")
      = some (MVal.vec
          (if 0 ≤ drivingValue ab tip base orig Vec3.z then
            vmul ⟨drivingValue ab tip base orig Vec3.z,
              drivingValue ab tip base orig Vec3.z,
              drivingValue ab tip base orig Vec3.z⟩ oP
          else
            vmul ⟨-drivingValue ab tip base orig Vec3.z,
              -drivingValue ab tip base orig Vec3.z,
              -drivingValue ab tip base orig Vec3.z⟩ oN))) := by
  have hy : drivingValue ab tip base orig Vec3.y
      = (angPair ab tip base orig).2.y * (angPair ab tip base orig).1 / 180 := rfl
  have hz : drivingValue ab tip base orig Vec3.z
      = (angPair ab tip base orig).2.z * (angPair ab tip base orig).1 / 180 := rfl
  refine ⟨⟨?_, ?_, ?_⟩, ?_, ?_, ?_⟩
  · rfl
  · have h : evalAttr ab demoBuilt.2 (demoEnvB tip base orig oP oN) 80 (17, "output")
        = some (MVal.vec (vmul
            ⟨(angPair ab tip base orig).2.y * (angPair ab tip base orig).1 / 180 * (-1),
             (angPair ab tip base orig).2.y * (angPair ab tip base orig).1 / 180 * (-1),
             (angPair ab tip base orig).2.y * (angPair ab tip base orig).1 / 180 * (-1)⟩
            oN)) := rfl
    rw [h, hy]
    norm_num
  · have h : evalAttr ab demoBuilt.2 (demoEnvB tip base orig oP oN) 80 (19, "outColor")
        = some (MVal.vec
            (if 0 ≤ (angPair ab tip base orig).2.y * (angPair ab tip base orig).1 / 180 then
              vmul ⟨(angPair ab tip base orig).2.y * (angPair ab tip base orig).1 / 180,
                (angPair ab tip base orig).2.y * (angPair ab tip base orig).1 / 180,
                (angPair ab tip base orig).2.y * (angPair ab tip base orig).1 / 180⟩ oP
            else
              vmul ⟨(angPair ab tip base orig).2.y * (angPair ab tip base orig).1 / 180 * (-1),
                (angPair ab tip base orig).2.y * (angPair ab tip base orig).1 / 180 * (-1),
                (angPair ab tip base orig).2.y * (angPair ab tip base orig).1 / 180 * (-1)⟩
              oN)) := rfl
    rw [h, hy]
    norm_num
  · rfl
  · have h : evalAttr ab demoBuilt.2 (demoEnvB tip base orig oP oN) 80 (21, "output")
        = some (MVal.vec (vmul
            ⟨(angPair ab tip base orig).2.z * (angPair ab tip base orig).1 / 180 * (-1),
             (angPair ab tip base orig).2.z * (angPair ab tip base orig).1 / 180 * (-1),
             (angPair ab tip base orig).2.z * (angPair ab tip base orig).1 / 180 * (-1)⟩
            oN)) := rfl
    rw [h, hz]
    norm_num
  · have h : evalAttr ab demoBuilt.2 (demoEnvB tip base orig oP oN) 80 (23, "outColor")
        = some (MVal.vec
            (if 0 ≤ (angPair ab tip base orig).2.z * (angPair ab tip base orig).1 / 180 then
              vmul ⟨(angPair ab tip base orig).2.z * (angPair ab tip base orig).1 / 180,
                (angPair ab tip base orig).2.z * (angPair ab tip base orig).1 / 180,
                (angPair ab tip base orig).2.z * (angPair ab tip base orig).1 / 180⟩ oP
            else
              vmul ⟨(angPair ab tip base orig).2.z * (angPair ab tip base orig).1 / 180 * (-1),
                (angPair ab tip base orig).2.z * (angPair ab tip base orig).1 / 180 * (-1),
                (angPair ab tip base orig).2.z * (angPair ab tip base orig).1 / 180 * (-1)⟩
              oN)) := rfl
    rw [h, hz]
    norm_num

/-! ## C7 -/

/-- The concrete corrective with its `vector_base` field left empty. -/
def fbCorr : CorrectiveState := { demoCorr with vector_base := none }

/-- Claim C7: when `vector_base` resolves to nothing at `build()` time,
`Corrective.build` falls back to the module's `parent_joint` as the
vector base and then proceeds exactly as if the field had been set to
it — the run equals the run with `vector_base` preset, it succeeds,
and the resulting state records the fallback. -/
theorem vector_base_fallback_spec (c : CorrectiveState) (s : Scene) (p : Nat)
    (h0 : c.vector_base = none) (hp : c.parent_joint = some p) :
    corrBuild c s = corrBuild { c with vector_base := some p } s ∧
    ∃ c' s', corrBuild c s = Except.ok (c', s') ∧ c'.vector_base = some p := by
  have heq := corrBuild_fallback_eq c s p h0 hp
  refine ⟨heq, ?_⟩
  obtain ⟨⟨c', s'⟩, hr⟩ := corrBuild_ok { c with vector_base := some p } s p rfl
  refine ⟨c', s', heq.trans hr, ?_⟩
  obtain ⟨hvb, _, _, _, _, _⟩ := corrBuild_fields _ s c' s' hr
  rw [hvb]
  simp

/-- Witness for C7 at the concrete corrective with an empty
`vector_base`. -/
theorem vector_base_fallback_witness :
    fbCorr.vector_base = none ∧ fbCorr.parent_joint = some 0 ∧
    (corrBuild fbCorr demoScene
        = corrBuild { fbCorr with vector_base := some 0 } demoScene ∧
      ∃ c' s', corrBuild fbCorr demoScene = Except.ok (c', s') ∧
        c'.vector_base = some 0) :=
  ⟨rfl, rfl, vector_base_fallback_spec fbCorr demoScene 0 rfl rfl⟩

/-! ## C8 -/

/-- Claim C8: writing a `chain_length` below the declared minimum of 1
is rejected with a `ValidationError` before storage — the module state
is unchanged — and writing exactly 1 to a chain whose single joint is
live makes `update()` a no-op, so the sole remaining joint is never
deleted. -/
theorem chain_length_bound_spec (c : ChainState) (s : Scene) (v : Int)
    (hv : v < 1) (hone : ((chainView c s).length : Int) = 1) :
    chainSetChainLength c v = Except.error ("ValidationError") ∧
    applyChainSet c v = c ∧
    chainUpdate (applyChainSet c 1) s = (applyChainSet c 1, s) := by
  have herr : intFieldSet true 1 v = Except.error ("ValidationError") := by
    simp [intFieldSet, hv]
  refine ⟨?_, ?_, ?_⟩
  · simp [chainSetChainLength, herr]
  · simp [applyChainSet, chainSetChainLength, herr]
  · have hset : applyChainSet c 1 = { c with chain_length := 1 } := by
      simp [applyChainSet, chainSetChainLength, intFieldSet]
    rw [hset]
    apply chainUpdate_noop
    exact hone

/-- Witness for C8: the rejected write `chain_length := 0` and the
boundary write `chain_length := 1` on a one-joint chain. -/
theorem chain_length_bound_witness :
    (0 : Int) < 1 ∧ ((chainView chainDemoC chainDemoS).length : Int) = 1 ∧
    (chainSetChainLength chainDemoC 0 = Except.error ("ValidationError") ∧
      applyChainSet chainDemoC 0 = chainDemoC ∧
      chainUpdate (applyChainSet chainDemoC 1) chainDemoS
        = (applyChainSet chainDemoC 1, chainDemoS)) :=
  ⟨by decide, by decide,
    chain_length_bound_spec chainDemoC chainDemoS 0 (by decide) (by decide)⟩

/-! ## C9 -/

/-- A corrective whose second owned joint (node 2) has no scene-graph
parent. -/
def orphanCorr : CorrectiveState :=
  { joint_count := 2, vector_base := none, vector_tip := none
    vector_base_loc := none, vector_tip_loc := none
    orig_pose_vector_tip_loc := none
    deform_joints := [1, 2], parent_joint := some 0
    controls_group := 3, extras_group := 4, node_mult := none }

/-- The scene of `orphanCorr`: joint 1 is parented under 0, joint 2 is
at the world root. -/
def orphanScene : Scene :=
  { nextId := 5, nodes := [0, 1, 2, 3, 4]
    types := [(0, NodeType.joint), (1, NodeType.joint), (2, NodeType.joint),
      (3, NodeType.transform), (4, NodeType.transform)]
    names := []
    parents := [(1, 0)]
    conns := [], attrsQ := [], attrsB := [], ptCons := [], parCons := []
    matCons := [], snaps := [], locked := [], customAttrs := []
    created := 0, deleted := 0 }

/-- Claim C9: `Corrective.update_parent_joint` indexes the parent
lookup of every owned joint without a guard; when every owned joint
has a scene-graph parent (and `parent_joint` is set) the operation
completes, while a state with an unparented owned joint makes it fail
(the Python `listRelatives(...)[0]` on `None`) instead of repairing
it. -/
theorem update_parent_joint_guard_spec (c : CorrectiveState) (s : Scene)
    (p : Nat) (hp : c.parent_joint = some p)
    (hall : ∀ j ∈ corrView c s, (lookupParent s j).isSome = true) :
    (∃ s', corrUpdateParentJoint c s = Except.ok s') ∧
    corrUpdateParentJoint orphanCorr orphanScene
      = Except.error ("TypeError") := by
  constructor
  · rcases hh : (corrView c s).head? with _ | j0
    · have hred : corrUpdateParentJoint c s
          = cupjLoop c.parent_joint (corrView c s) s := by
        simp only [corrUpdateParentJoint, hh, hp]
      rw [hred, hp]
      exact cupjLoop_ok p (corrView c s) s hall
    · by_cases hlk : lookupParent s j0 = some p
      · have hred : corrUpdateParentJoint c s
            = cupjLoop c.parent_joint (corrView c s) s := by
          simp only [corrUpdateParentJoint, hh, hp, if_pos hlk]
        rw [hred, hp]
        exact cupjLoop_ok p (corrView c s) s hall
      · have hred : corrUpdateParentJoint c s
            = cupjLoop c.parent_joint (corrView c (reparent s j0 p))
                (reparent s j0 p) := by
          simp only [corrUpdateParentJoint, hh, hp, if_neg hlk]
        rw [hred, hp]
        exact cupjLoop_ok p (corrView c (reparent s j0 p)) (reparent s j0 p)
          (fun j hj => lookupParent_reparent_isSome s j0 p j (hall j hj))
  · rfl

/-- Witness for C9 on the concrete all-parented corrective. -/
theorem update_parent_joint_guard_witness :
    demoCorr.parent_joint = some 0 ∧
    (∀ j ∈ corrView demoCorr demoScene,
      (lookupParent demoScene j).isSome = true) ∧
    ((∃ s', corrUpdateParentJoint demoCorr demoScene = Except.ok s') ∧
      corrUpdateParentJoint orphanCorr orphanScene
        = Except.error ("TypeError")) :=
  ⟨rfl, by decide,
    update_parent_joint_guard_spec demoCorr demoScene 0 rfl (by decide)⟩

/-! ## C10 -/

/-- Claim C10: `Corrective.build`'s fallback is a write of
`parent_joint`'s value into the persisted `vector_base` field; apart
from the three derived locator references, `build` modifies no other
persisted configuration field (`joint_count`, `vector_tip`,
`deform_joints` and `parent_joint` are unchanged); after a successful
build `vector_base` is set, so on any later build — even with a
changed `parent_joint` — the fallback no longer fires and
`vector_base` stays what it was. -/
theorem build_field_frame_spec (c : CorrectiveState) (s : Scene)
    (c' : CorrectiveState) (s' : Scene)
    (h : corrBuild c s = Except.ok (c', s')) :
    c'.vector_base
      = (if c.vector_base = none then c.parent_joint else c.vector_base) ∧
    c'.joint_count = c.joint_count ∧ c'.vector_tip = c.vector_tip ∧
    c'.deform_joints = c.deform_joints ∧ c'.parent_joint = c.parent_joint ∧
    (∃ v, c'.vector_base = some v) ∧
    (∀ (pj : Option Nat) (s2 : Scene) (c2 : CorrectiveState) (s3 : Scene),
      corrBuild { c' with parent_joint := pj } s2 = Except.ok (c2, s3) →
      c2.vector_base = c'.vector_base) := by
  obtain ⟨h1, h2, h3, h4, h5, h6⟩ := corrBuild_fields c s c' s' h
  refine ⟨h1, h2, h3, h4, h5, h6, ?_⟩
  intro pj s2 c2 s3 h7
  obtain ⟨g1, _, _, _, _, _⟩ := corrBuild_fields _ s2 c2 s3 h7
  rw [g1]
  obtain ⟨v, hv⟩ := h6
  simp [hv]

/-- Witness for C10 on the concrete corrective build. -/
theorem build_field_frame_witness :
    corrBuild demoCorr demoScene = Except.ok (demoBuilt.1, demoBuilt.2) ∧
    (demoBuilt.1.vector_base
        = (if demoCorr.vector_base = none then demoCorr.parent_joint
          else demoCorr.vector_base) ∧
      demoBuilt.1.joint_count = demoCorr.joint_count ∧
      demoBuilt.1.vector_tip = demoCorr.vector_tip ∧
      demoBuilt.1.deform_joints = demoCorr.deform_joints ∧
      demoBuilt.1.parent_joint = demoCorr.parent_joint ∧
      (∃ v, demoBuilt.1.vector_base = some v) ∧
      (∀ (pj : Option Nat) (s2 : Scene) (c2 : CorrectiveState) (s3 : Scene),
        corrBuild { demoBuilt.1 with parent_joint := pj } s2
          = Except.ok (c2, s3) →
        c2.vector_base = demoBuilt.1.vector_base)) :=
  ⟨rfl, build_field_frame_spec demoCorr demoScene demoBuilt.1 demoBuilt.2 rfl⟩
